import Mathlib

/-!
Shallow embedding of the backtest simulation engine of the bybit-trading-bot
repository (file `src/unnamed/part_000`, the backtesting module: class
`Backtester`, methods `simulate` and `displayResults`).

Money amounts and prices are modelled as rationals; candle timestamps as
natural numbers (milliseconds since the epoch, as in the source, where
`new Date(candle[0])` is later compared and subtracted numerically).
The pluggable trading strategy is modelled as a record of the three pure
functions the simulation loop consumes (`analyze`, `calculateExitPrices`,
`calculatePositionSize`), exactly the contract the loop uses.

The JavaScript expression `new Date(ts).getDate()` (local day-of-month,
depending on the ambient timezone of the host) is modelled by an arbitrary
function `getDate : Nat -> Nat` passed to the simulation; all theorems are
universally quantified over it.
-/

namespace Backtest

/-- One OHLCV candle, the fixed 6-field tuple
`[timestamp, open, high, low, close, volume]` of the source
(`candle[0]` is the timestamp, `candle[4]` the close price). -/
structure Candle where
  timestamp : Nat
  opn : ℚ
  high : ℚ
  low : ℚ
  close : ℚ
  volume : ℚ
deriving DecidableEq, Inhabited, Repr

/-- A strategy signal: the source represents `action` as one of the strings
"BUY", "SELL", "HOLD" (any other value behaves like a hold), together with a
textual reason. -/
structure Signal where
  action : String
  reason : String
deriving DecidableEq, Inhabited, Repr

/-- The open position record built in the entry path of
`Backtester.simulate`. -/
structure Position where
  entryPrice : ℚ
  quantity : ℚ
  stopLoss : ℚ
  takeProfit : ℚ
  entryTime : Nat
  positionValue : ℚ
  marginUsed : ℚ
  leverage : ℚ
  entryFee : ℚ
deriving DecidableEq, Inhabited, Repr

/-- A closed-trade record as pushed onto `this.results.trades`. The field
`profit` of the source is the net profit (gross profit minus all fees). -/
structure Trade where
  entry : ℚ
  exit : ℚ
  quantity : ℚ
  profit : ℚ
  profitPercent : ℚ
  reason : String
  entryTime : Nat
  exitTime : Nat
  duration : ℚ
  fees : ℚ
deriving DecidableEq, Inhabited, Repr

/-- The result of `strategy.calculatePositionSize`. -/
structure PositionSize where
  quantity : ℚ
  positionValue : ℚ
deriving DecidableEq, Inhabited, Repr

/-- The result of `strategy.calculateExitPrices`. -/
structure ExitPrices where
  stopLoss : ℚ
  takeProfit : ℚ
deriving DecidableEq, Inhabited, Repr

/-- The strategy contract consumed by the simulation loop: `analyze` receives
the growing candle history and the current position (or none) and returns a
signal; the two sizing helpers are called on the entry path. -/
structure Strategy where
  analyze : List Candle → Option Position → Signal
  calculateExitPrices : ℚ → ExitPrices
  calculatePositionSize : ℚ → ℚ → ℚ → PositionSize

/-- The configuration values read by `Backtester.simulate` and
`displayResults`: `config.trading.initialBalance`, `config.trading.leverage`,
`config.fees.maker`, `config.fees.taker`, `config.trading.maxDailyLosses`,
and the indicator periods feeding `minHistory`. -/
structure Config where
  initialBalance : ℚ
  leverage : ℚ
  makerFee : ℚ
  takerFee : ℚ
  maxDailyLosses : Nat
  emaSlowPeriod : Nat
  rsiPeriod : Nat
deriving Inhabited

/-- The `this.results` object of the backtester, as initialized in the
constructor: empty trade list, balance, initial balance and peak balance all
set to the configured initial balance, max drawdown 0. -/
structure Results where
  trades : List Trade
  balance : ℚ
  initialBalance : ℚ
  peakBalance : ℚ
  maxDrawdown : ℚ
deriving DecidableEq, Inhabited, Repr

/-- The full mutable state of one run of `Backtester.simulate`: the results
object plus the local variables `position`, `dailyTrades`, `dailyLoss`,
`lastCandle`, `lastTimestamp`. -/
structure SimState where
  results : Results
  position : Option Position
  dailyTrades : Nat
  dailyLoss : ℚ
  lastCandle : Option Candle
  lastTimestamp : Option Nat
deriving DecidableEq, Inhabited, Repr

/-- Source: `const minHistory = Math.max(slowPeriod, rsiPeriod) + 10`. -/
def minHistory (cfg : Config) : Nat :=
  max cfg.emaSlowPeriod cfg.rsiPeriod + 10

/-- Initial simulation state: the `results` object built in the constructor
together with the initial values of the loop-local variables
(`position = null`, `dailyTrades = 0`, `dailyLoss = 0`,
`lastCandle = null`, `lastTimestamp = null`). -/
def initState (cfg : Config) : SimState :=
  { results := { trades := [], balance := cfg.initialBalance,
                 initialBalance := cfg.initialBalance,
                 peakBalance := cfg.initialBalance, maxDrawdown := 0 },
    position := none, dailyTrades := 0, dailyLoss := 0,
    lastCandle := none, lastTimestamp := none }

/-- Source lines `lastCandle = currentCandle; lastTimestamp = timestamp;`
executed at the top of every loop iteration. -/
def trackLast (c : Candle) (st : SimState) : SimState :=
  { st with lastCandle := some c, lastTimestamp := some c.timestamp }

/-- Source: daily counter reset — `if (i > minHistory)` compare
`getDate` of the current and previous candle timestamps and zero
`dailyTrades` and `dailyLoss` when the day changed. -/
def resetDaily (cfg : Config) (getDate : Nat → Nat) (candles : List Candle)
    (i : Nat) (st : SimState) : SimState :=
  if minHistory cfg < i then
    let timestamp := (candles.getD i default).timestamp
    let prevTimestamp := (candles.getD (i - 1) default).timestamp
    if getDate timestamp ≠ getDate prevTimestamp then
      { st with dailyTrades := 0, dailyLoss := 0 }
    else st
  else st

/-- Signal-driven entry/exit block of `Backtester.simulate`
(the `if (signal.action === "BUY" ...) { ... } else if
(signal.action === "SELL" && position) { ... }` statement). The returned
flag is `true` exactly when the source executes `continue` (the two
insufficient-balance skips), which jumps to the next candle and skips the
per-candle exit checks and the drawdown update. -/
def signalPhase (cfg : Config) (strat : Strategy) (candles : List Candle)
    (i : Nat) (st : SimState) : SimState × Bool :=
  let currentCandle := candles.getD i default
  let currentPrice := currentCandle.close
  let timestamp := currentCandle.timestamp
  let signal := strat.analyze (candles.take (i + 1)) st.position
  if signal.action = "BUY" ∧ st.position = none ∧
      st.dailyTrades < cfg.maxDailyLosses then
    -- Entry path.
    let ep := strat.calculateExitPrices currentPrice
    -- Source: `const leverage = this.config.trading.leverage || 1;`
    -- (a zero/absent leverage falls back to 1).
    let leverage := if cfg.leverage = 0 then 1 else cfg.leverage
    let effectiveBalance := st.results.balance * leverage
    let ps := strat.calculatePositionSize effectiveBalance currentPrice ep.stopLoss
    -- Source: `if (positionSize.positionValue >= 10)`.
    if 10 ≤ ps.positionValue then
      let marginRequired := ps.positionValue / leverage
      -- Source: `if (this.results.balance < marginRequired) { ... continue; }`
      if st.results.balance < marginRequired then (st, true)
      else
        let entryFee := ps.positionValue * cfg.makerFee
        -- Source: `if (this.results.balance < marginRequired + entryFee)
        -- { ... continue; }`
        if st.results.balance < marginRequired + entryFee then (st, true)
        else
          let pos : Position :=
            { entryPrice := currentPrice, quantity := ps.quantity,
              stopLoss := ep.stopLoss, takeProfit := ep.takeProfit,
              entryTime := timestamp, positionValue := ps.positionValue,
              marginUsed := marginRequired, leverage := leverage,
              entryFee := entryFee }
          ({ st with
              position := some pos,
              results := { st.results with
                balance := st.results.balance - (marginRequired + entryFee) } },
           false)
    else (st, false)
  else if signal.action = "SELL" then
    match st.position with
    | some p =>
      -- Explicit-signal exit path.
      let exitValue := p.quantity * currentPrice
      let profit := exitValue - p.positionValue
      let profitPercent := profit / p.positionValue * 100
      let exitFee := exitValue * cfg.takerFee
      let totalFees := p.entryFee + exitFee
      let trade : Trade :=
        { entry := p.entryPrice, exit := currentPrice, quantity := p.quantity,
          profit := profit - totalFees, profitPercent := profitPercent,
          reason := signal.reason, entryTime := p.entryTime,
          exitTime := timestamp,
          duration := ((timestamp : ℚ) - (p.entryTime : ℚ)) / 1000 / 60,
          fees := totalFees }
      let st1 :=
        { st with
          results := { st.results with
            balance := st.results.balance + p.marginUsed + profit - exitFee,
            trades := st.results.trades ++ [trade] },
          position := none }
      let st2 :=
        if trade.profit < 0 then
          { st1 with dailyLoss := st1.dailyLoss + |trade.profit|,
                     dailyTrades := st1.dailyTrades + 1 }
        else st1
      (st2, false)
    | none => (st, false)
  else (st, false)

/-- Independent per-candle exit block of `Backtester.simulate`
(the `if (position) { ... }` statement after the signal branches):
liquidation check first, then the combined stop-loss / take-profit check
with the stop-loss condition deciding both the fill price and the reason. -/
def exitChecks (cfg : Config) (candles : List Candle) (i : Nat)
    (st : SimState) : SimState :=
  match st.position with
  | none => st
  | some p =>
    let currentCandle := candles.getD i default
    let currentPrice := currentCandle.close
    let timestamp := currentCandle.timestamp
    let currentValue := p.quantity * currentPrice
    let unrealizedPnL := currentValue - p.positionValue
    -- Source: `const liquidationThreshold = -position.marginUsed * 0.9;`
    let liquidationThreshold := -p.marginUsed * (9 / 10)
    if unrealizedPnL ≤ liquidationThreshold then
      -- Source: `this.results.balance += 0; // Lose all margin`
      let trade : Trade :=
        { entry := p.entryPrice, exit := currentPrice, quantity := p.quantity,
          profit := -p.marginUsed - p.entryFee, profitPercent := -100,
          reason := "LIQUIDATION", entryTime := p.entryTime,
          exitTime := timestamp,
          duration := ((timestamp : ℚ) - (p.entryTime : ℚ)) / 1000 / 60,
          fees := p.entryFee }
      { st with
        results := { st.results with
          balance := st.results.balance + 0,
          trades := st.results.trades ++ [trade] },
        position := none }
    else if currentPrice ≤ p.stopLoss ∨ p.takeProfit ≤ currentPrice then
      let exitPrice := if currentPrice ≤ p.stopLoss then p.stopLoss else p.takeProfit
      let exitValue := p.quantity * exitPrice
      let profit := exitValue - p.positionValue
      let profitPercent := profit / p.positionValue * 100
      let exitFee := exitValue * cfg.takerFee
      let totalFees := p.entryFee + exitFee
      let reason := if currentPrice ≤ p.stopLoss then "Stop Loss" else "Take Profit"
      let trade : Trade :=
        { entry := p.entryPrice, exit := exitPrice, quantity := p.quantity,
          profit := profit - totalFees, profitPercent := profitPercent,
          reason := reason, entryTime := p.entryTime, exitTime := timestamp,
          duration := ((timestamp : ℚ) - (p.entryTime : ℚ)) / 1000 / 60,
          fees := totalFees }
      let st1 :=
        { st with
          results := { st.results with
            balance := st.results.balance + p.marginUsed + profit - exitFee,
            trades := st.results.trades ++ [trade] },
          position := none }
      let st2 :=
        if trade.profit < 0 then
          { st1 with dailyLoss := st1.dailyLoss + |trade.profit|,
                     dailyTrades := st1.dailyTrades + 1 }
        else st1
      st2
    else st

/-- Drawdown tracking block at the end of each loop iteration:
`peakBalance = max(peakBalance, balance)` via an if, then
`maxDrawdown = max(maxDrawdown, (peakBalance-balance)/peakBalance*100)`
via an if. -/
def updateDrawdown (st : SimState) : SimState :=
  let r1 :=
    if st.results.peakBalance < st.results.balance then
      { st.results with peakBalance := st.results.balance }
    else st.results
  let drawdown := (r1.peakBalance - r1.balance) / r1.peakBalance * 100
  let r2 := if r1.maxDrawdown < drawdown then { r1 with maxDrawdown := drawdown } else r1
  { st with results := r2 }

/-- One iteration of the simulation loop body for candle index `i`
(after the safety gates): track last candle/timestamp, reset the daily
counters on a day change, run the signal-driven entry/exit block, and —
unless that block executed `continue` — the per-candle exit checks and the
drawdown update. -/
def stepCandle (cfg : Config) (strat : Strategy) (getDate : Nat → Nat)
    (candles : List Candle) (i : Nat) (st : SimState) : SimState :=
  let st0 := trackLast (candles.getD i default) st
  let st1 := resetDaily cfg getDate candles i st0
  let res := signalPhase cfg strat candles i st1
  if res.2 then res.1 else updateDrawdown (exitChecks cfg candles i res.1)

/-- Source: `const MAX_TRADES = 500;`. -/
def MAX_TRADES : Nat := 500

/-- The `for (let i = minHistory; i < candles.length; i++)` loop of
`Backtester.simulate`, including the two loop-terminating safety gates
checked at the top of each iteration (trade-count ceiling, balance floor).
The structural recursion runs on the number `gas` of remaining candle
indices; the loop is always entered with `gas = candles.length - i`, so
`0 < gas` holds exactly when `i < candles.length`, the loop condition of
the source. -/
def simLoop (cfg : Config) (strat : Strategy) (getDate : Nat → Nat)
    (candles : List Candle) : Nat → Nat → SimState → SimState
  | 0, _, st => st
  | gas + 1, i, st =>
    if MAX_TRADES ≤ st.results.trades.length then st
    else if st.results.balance < 10 then st
    else simLoop cfg strat getDate candles gas (i + 1)
      (stepCandle cfg strat getDate candles i st)

/-- Post-loop cleanup of `Backtester.simulate`: `if (position && lastCandle)`
force-close the open position at the last processed candle close price with
reason "End of backtest period" and exit time `lastTimestamp`. -/
def closeEndOfPeriod (cfg : Config) (st : SimState) : SimState :=
  match st.position, st.lastCandle with
  | some p, some lc =>
    let currentPrice := lc.close
    let exitValue := p.quantity * currentPrice
    let profit := exitValue - p.positionValue
    let exitFee := exitValue * cfg.takerFee
    let totalFees := p.entryFee + exitFee
    let exitTime := st.lastTimestamp.getD 0
    let trade : Trade :=
      { entry := p.entryPrice, exit := currentPrice, quantity := p.quantity,
        profit := profit - totalFees,
        profitPercent := profit / p.positionValue * 100,
        reason := "End of backtest period", entryTime := p.entryTime,
        exitTime := exitTime,
        duration := ((exitTime : ℚ) - (p.entryTime : ℚ)) / 1000 / 60,
        fees := totalFees }
    { st with
      results := { st.results with
        balance := st.results.balance + p.marginUsed + profit - exitFee,
        trades := st.results.trades ++ [trade] },
      position := none }
  | _, _ => st

/-- The state reached when the simulation loop terminates (before the
end-of-period cleanup). -/
def loopFinal (cfg : Config) (strat : Strategy) (getDate : Nat → Nat)
    (candles : List Candle) : SimState :=
  simLoop cfg strat getDate candles (candles.length - minHistory cfg)
    (minHistory cfg) (initState cfg)

/-- The whole of `Backtester.simulate`: run the loop from `minHistory` on the
freshly initialized state, then force-close any remaining open position. -/
def simulate (cfg : Config) (strat : Strategy) (getDate : Nat → Nat)
    (candles : List Candle) : SimState :=
  closeEndOfPeriod cfg (loopFinal cfg strat getDate candles)

/-- The statistics block assembled by `Backtester.displayResults` and passed
to `saveResultsToFile`. -/
structure BacktestReport where
  totalTrades : Nat
  winningTrades : Nat
  losingTrades : Nat
  winRate : ℚ
  totalProfit : ℚ
  totalFees : ℚ
  avgProfit : ℚ
  avgWin : ℚ
  avgLoss : ℚ
  profitFactor : ℚ
  finalBalance : ℚ
  totalReturn : ℚ
  avgDuration : ℚ
deriving DecidableEq, Inhabited, Repr

/-- The statistics computation of `Backtester.displayResults`. The source
returns early — producing no report at all — when the trade list is empty
(`if (totalTrades === 0) { logger.warn(...); return; }`); this is modelled
by the `none` result. Otherwise every metric is computed exactly as in the
source and the assembled report is returned. -/
def displayResults (res : Results) : Option BacktestReport :=
  let trades := res.trades
  let totalTrades := trades.length
  if totalTrades = 0 then none
  else
    let winningTrades := trades.filter (fun t => 0 < t.profit)
    let losingTrades := trades.filter (fun t => t.profit < 0)
    let winRate := ((winningTrades.length : ℚ) / (totalTrades : ℚ)) * 100
    let totalProfit := (trades.map (fun t => t.profit)).sum
    let totalFees := (trades.map (fun t => t.fees)).sum
    let avgProfit := totalProfit / (totalTrades : ℚ)
    let avgWin :=
      if 0 < winningTrades.length then
        (winningTrades.map (fun t => t.profit)).sum / (winningTrades.length : ℚ)
      else 0
    let avgLoss :=
      if 0 < losingTrades.length then
        (losingTrades.map (fun t => t.profit)).sum / (losingTrades.length : ℚ)
      else 0
    let profitFactor := if avgLoss ≠ 0 then |avgWin / avgLoss| else 0
    let finalBalance := res.balance
    let totalReturn := (finalBalance - res.initialBalance) / res.initialBalance * 100
    let avgDuration := (trades.map (fun t => t.duration)).sum / (totalTrades : ℚ)
    some { totalTrades := totalTrades, winningTrades := winningTrades.length,
           losingTrades := losingTrades.length, winRate := winRate,
           totalProfit := totalProfit, totalFees := totalFees,
           avgProfit := avgProfit, avgWin := avgWin, avgLoss := avgLoss,
           profitFactor := profitFactor, finalBalance := finalBalance,
           totalReturn := totalReturn, avgDuration := avgDuration }

/-!
Helper quantities for the accounting theorems.
-/

/-- Funds withheld from the free balance by an open position: the margin plus
the entry fee, both debited in one step on entry. -/
def lockedFunds : Option Position → ℚ
  | some p => p.marginUsed + p.entryFee
  | none => 0

/-- Sum of the net profits of a list of trades. -/
def tradesPnl (ts : List Trade) : ℚ := (ts.map (fun t => t.profit)).sum

/-- Accounting potential of a simulation state: free balance plus funds
locked in the open position, minus the net profit already realized. This
quantity is invariant across the whole simulation. -/
def equity (st : SimState) : ℚ :=
  st.results.balance + lockedFunds st.position - tradesPnl st.results.trades

lemma tradesPnl_append (ts : List Trade) (t : Trade) :
    tradesPnl (ts ++ [t]) = tradesPnl ts + t.profit := by
  simp [tradesPnl]

lemma trackLast_results (c : Candle) (st : SimState) :
    (trackLast c st).results = st.results := rfl

lemma trackLast_position (c : Candle) (st : SimState) :
    (trackLast c st).position = st.position := rfl

lemma trackLast_dailyTrades (c : Candle) (st : SimState) :
    (trackLast c st).dailyTrades = st.dailyTrades := rfl

lemma resetDaily_results (cfg : Config) (getDate : Nat → Nat)
    (candles : List Candle) (i : Nat) (st : SimState) :
    (resetDaily cfg getDate candles i st).results = st.results := by
  simp only [resetDaily]; split_ifs <;> rfl

lemma resetDaily_position (cfg : Config) (getDate : Nat → Nat)
    (candles : List Candle) (i : Nat) (st : SimState) :
    (resetDaily cfg getDate candles i st).position = st.position := by
  simp only [resetDaily]; split_ifs <;> rfl

lemma resetDaily_last (cfg : Config) (getDate : Nat → Nat)
    (candles : List Candle) (i : Nat) (st : SimState) :
    (resetDaily cfg getDate candles i st).lastCandle = st.lastCandle ∧
    (resetDaily cfg getDate candles i st).lastTimestamp = st.lastTimestamp := by
  simp only [resetDaily]; split_ifs <;> exact ⟨rfl, rfl⟩

lemma equity_trackLast (c : Candle) (st : SimState) :
    equity (trackLast c st) = equity st := rfl

lemma equity_resetDaily (cfg : Config) (getDate : Nat → Nat)
    (candles : List Candle) (i : Nat) (st : SimState) :
    equity (resetDaily cfg getDate candles i st) = equity st := by
  unfold equity
  rw [resetDaily_results, resetDaily_position]

lemma equity_signalPhase (cfg : Config) (strat : Strategy)
    (candles : List Candle) (i : Nat) (st : SimState) :
    equity (signalPhase cfg strat candles i st).1 = equity st := by
  cases hpos : st.position with
  | none =>
    simp only [signalPhase, hpos]
    split_ifs <;>
      (all_goals simp [equity, lockedFunds, hpos, tradesPnl_append])
  | some p =>
    simp only [signalPhase, hpos]
    have hc : ¬((strat.analyze (candles.take (i + 1)) (some p)).action = "BUY" ∧
        (some p : Option Position) = none ∧
        st.dailyTrades < cfg.maxDailyLosses) := by simp
    rw [if_neg hc]
    split_ifs <;>
      (all_goals simp [equity, lockedFunds, hpos, tradesPnl_append]) <;>
      (all_goals try ring)

lemma equity_exitChecks (cfg : Config) (candles : List Candle) (i : Nat)
    (st : SimState) :
    equity (exitChecks cfg candles i st) = equity st := by
  cases hpos : st.position with
  | none => simp only [exitChecks, hpos]
  | some p =>
    simp only [exitChecks, hpos]
    split_ifs <;>
      (all_goals simp [equity, lockedFunds, hpos, tradesPnl_append]) <;>
      (all_goals try ring)

lemma updateDrawdown_core (st : SimState) :
    (updateDrawdown st).results.balance = st.results.balance ∧
    (updateDrawdown st).results.trades = st.results.trades ∧
    (updateDrawdown st).position = st.position ∧
    (updateDrawdown st).dailyTrades = st.dailyTrades ∧
    (updateDrawdown st).lastCandle = st.lastCandle ∧
    (updateDrawdown st).lastTimestamp = st.lastTimestamp := by
  simp only [updateDrawdown]
  split_ifs <;> simp

lemma equity_updateDrawdown (st : SimState) :
    equity (updateDrawdown st) = equity st := by
  unfold equity
  rw [(updateDrawdown_core st).1, (updateDrawdown_core st).2.1,
    (updateDrawdown_core st).2.2.1]

/-- The step of the simulation loop leaves the accounting potential
unchanged: entries move money from balance into the locked position, and
every close moves locked funds and realized profit back in lockstep. -/
lemma equity_stepCandle (cfg : Config) (strat : Strategy) (getDate : Nat → Nat)
    (candles : List Candle) (i : Nat) (st : SimState) :
    equity (stepCandle cfg strat getDate candles i st) = equity st := by
  simp only [stepCandle]
  split
  · rw [equity_signalPhase, equity_resetDaily, equity_trackLast]
  · rw [equity_updateDrawdown, equity_exitChecks, equity_signalPhase,
      equity_resetDaily, equity_trackLast]

/-- Invariant-propagation principle for the simulation loop. -/
theorem simLoop_induction (cfg : Config) (strat : Strategy)
    (getDate : Nat → Nat) (candles : List Candle) (P : SimState → Prop)
    (hstep : ∀ i st, P st → P (stepCandle cfg strat getDate candles i st))
    (gas i : Nat) (st : SimState) (h : P st) :
    P (simLoop cfg strat getDate candles gas i st) := by
  induction gas generalizing i st with
  | zero => exact h
  | succ gas ih =>
    simp only [simLoop]
    split_ifs
    · exact h
    · exact h
    · exact ih (i + 1) _ (hstep i st h)

lemma equity_simLoop (cfg : Config) (strat : Strategy) (getDate : Nat → Nat)
    (candles : List Candle) (gas i : Nat) (st : SimState) :
    equity (simLoop cfg strat getDate candles gas i st) = equity st := by
  exact simLoop_induction cfg strat getDate candles
    (fun s => equity s = equity st)
    (fun j s hs => by
      show equity (stepCandle cfg strat getDate candles j s) = equity st
      rw [equity_stepCandle]; exact hs) gas i st rfl

lemma equity_closeEndOfPeriod (cfg : Config) (st : SimState) :
    equity (closeEndOfPeriod cfg st) = equity st := by
  unfold closeEndOfPeriod
  cases hpos : st.position with
  | none => rfl
  | some p =>
    cases hlc : st.lastCandle with
    | none => rfl
    | some lc =>
      simp [equity, lockedFunds, hpos, tradesPnl_append]
      ring

lemma signalPhase_last (cfg : Config) (strat : Strategy)
    (candles : List Candle) (i : Nat) (st : SimState) :
    (signalPhase cfg strat candles i st).1.lastCandle = st.lastCandle ∧
    (signalPhase cfg strat candles i st).1.lastTimestamp = st.lastTimestamp := by
  cases hpos : st.position with
  | none =>
    simp only [signalPhase, hpos]
    split_ifs <;> simp
  | some p =>
    simp only [signalPhase, hpos]
    have hc : ¬((strat.analyze (candles.take (i + 1)) (some p)).action = "BUY" ∧
        (some p : Option Position) = none ∧
        st.dailyTrades < cfg.maxDailyLosses) := by simp
    rw [if_neg hc]
    split_ifs <;> simp

lemma exitChecks_last (cfg : Config) (candles : List Candle) (i : Nat)
    (st : SimState) :
    (exitChecks cfg candles i st).lastCandle = st.lastCandle ∧
    (exitChecks cfg candles i st).lastTimestamp = st.lastTimestamp := by
  cases hpos : st.position with
  | none => simp [exitChecks, hpos]
  | some p =>
    simp only [exitChecks, hpos]
    split_ifs <;> simp

/-- Every loop iteration records the processed candle as the last one seen,
together with its timestamp. -/
lemma stepCandle_last (cfg : Config) (strat : Strategy) (getDate : Nat → Nat)
    (candles : List Candle) (i : Nat) (st : SimState) :
    (stepCandle cfg strat getDate candles i st).lastCandle =
      some (candles.getD i default) ∧
    (stepCandle cfg strat getDate candles i st).lastTimestamp =
      some (candles.getD i default).timestamp := by
  simp only [stepCandle]
  split
  · rw [(signalPhase_last _ _ _ _ _).1, (signalPhase_last _ _ _ _ _).2,
      (resetDaily_last _ _ _ _ _).1, (resetDaily_last _ _ _ _ _).2]
    exact ⟨rfl, rfl⟩
  · rw [(updateDrawdown_core _).2.2.2.2.1, (updateDrawdown_core _).2.2.2.2.2,
      (exitChecks_last _ _ _ _).1, (exitChecks_last _ _ _ _).2,
      (signalPhase_last _ _ _ _ _).1, (signalPhase_last _ _ _ _ _).2,
      (resetDaily_last _ _ _ _ _).1, (resetDaily_last _ _ _ _ _).2]
    exact ⟨rfl, rfl⟩

/-- While the simulation runs, an open position can only coexist with a
recorded last candle whose timestamp is the recorded last timestamp. -/
def lastOk (st : SimState) : Prop :=
  st.position = none ∨
    ∃ c, st.lastCandle = some c ∧ st.lastTimestamp = some c.timestamp

lemma lastOk_stepCandle (cfg : Config) (strat : Strategy) (getDate : Nat → Nat)
    (candles : List Candle) (i : Nat) (st : SimState) :
    lastOk (stepCandle cfg strat getDate candles i st) :=
  Or.inr ⟨candles.getD i default,
    (stepCandle_last cfg strat getDate candles i st).1,
    (stepCandle_last cfg strat getDate candles i st).2⟩

lemma lastOk_loopFinal (cfg : Config) (strat : Strategy) (getDate : Nat → Nat)
    (candles : List Candle) :
    lastOk (loopFinal cfg strat getDate candles) :=
  simLoop_induction cfg strat getDate candles lastOk
    (fun i s _ => lastOk_stepCandle cfg strat getDate candles i s)
    (candles.length - minHistory cfg) (minHistory cfg) (initState cfg)
    (Or.inl rfl)

/-- After the end-of-period cleanup no position remains open. -/
lemma closeEndOfPeriod_position (cfg : Config) (st : SimState)
    (h : lastOk st) : (closeEndOfPeriod cfg st).position = none := by
  rcases h with hnone | ⟨c, hc, -⟩
  · unfold closeEndOfPeriod
    rw [hnone]
    exact hnone
  · unfold closeEndOfPeriod
    rw [hc]
    cases hpos : st.position with
    | none => exact hpos
    | some p => rfl

lemma simulate_position_none (cfg : Config) (strat : Strategy)
    (getDate : Nat → Nat) (candles : List Candle) :
    (simulate cfg strat getDate candles).position = none :=
  closeEndOfPeriod_position cfg _ (lastOk_loopFinal cfg strat getDate candles)

lemma equity_initState (cfg : Config) :
    equity (initState cfg) = cfg.initialBalance := by
  simp [equity, initState, lockedFunds, tradesPnl]

lemma equity_simulate (cfg : Config) (strat : Strategy) (getDate : Nat → Nat)
    (candles : List Candle) :
    equity (simulate cfg strat getDate candles) = cfg.initialBalance := by
  unfold simulate loopFinal
  rw [equity_closeEndOfPeriod, equity_simLoop, equity_initState]

/-- C1. For every run in which no trade is recorded with reason LIQUIDATION,
the final balance equals the initial balance plus the sum of net profits over
all recorded trades: every accepted entry debits exactly margin plus entry
fee, and every non-liquidation close credits exactly margin plus gross profit
minus exit fee, so the per-trade balance change equals the net profit.
(The proof goes through the invariance of the accounting potential
`equity`.) -/
theorem conservation_no_liquidation (cfg : Config) (strat : Strategy)
    (getDate : Nat → Nat) (candles : List Candle)
    (_hnl : ∀ t ∈ (simulate cfg strat getDate candles).results.trades,
      t.reason ≠ "LIQUIDATION") :
    (simulate cfg strat getDate candles).results.balance =
      cfg.initialBalance +
        tradesPnl (simulate cfg strat getDate candles).results.trades := by
  have heq := equity_simulate cfg strat getDate candles
  unfold equity at heq
  rw [simulate_position_none cfg strat getDate candles] at heq
  simp only [lockedFunds] at heq
  linarith

/-!
Concrete fixtures used by the witnesses and counterexamples: a small
configuration, a constant price path of eleven candles (the minimum needed
for one loop iteration when both indicator periods are zero), and simple
strategies.
-/

/-- Witness configuration: balance 200, leverage 1, zero fees. -/
def wCfg : Config :=
  { initialBalance := 200, leverage := 1, makerFee := 0, takerFee := 0,
    maxDailyLosses := 3, emaSlowPeriod := 0, rsiPeriod := 0 }

/-- Witness candle number `n`: constant price 100, one-minute spacing. -/
def wCandle (n : Nat) : Candle :=
  { timestamp := n * 60000, opn := 100, high := 100, low := 100,
    close := 100, volume := 1 }

/-- Eleven constant candles: with both indicator periods zero the loop body
runs exactly once, at index 10. -/
def wCandles : List Candle := (List.range 11).map wCandle

/-- Witness strategy: buy once when flat, then hold; stop at half the entry
price, take profit at twice the entry price; fixed position value 36. -/
def wBuyStrat : Strategy :=
  { analyze := fun _ pos =>
      match pos with
      | none => { action := "BUY", reason := "test entry" }
      | some _ => { action := "HOLD", reason := "" },
    calculateExitPrices := fun price =>
      { stopLoss := price / 2, takeProfit := price * 2 },
    calculatePositionSize := fun _ _ _ =>
      { quantity := 36 / 100, positionValue := 36 } }

/-- All-hold strategy. -/
def wHoldStrat : Strategy :=
  { analyze := fun _ _ => { action := "HOLD", reason := "no signal" },
    calculateExitPrices := fun price =>
      { stopLoss := price, takeProfit := price },
    calculatePositionSize := fun _ _ _ =>
      { quantity := 0, positionValue := 0 } }

/-- Day-of-month function of the witnesses: constant, so daily counters
never reset. -/
def wDate : Nat → Nat := fun _ => 1

/-- The end-of-period trade produced by the witness run: entry and exit both
at price 100, so zero profit and (with zero fee rates) zero fees. -/
def wEndTrade : Trade :=
  { entry := 100, exit := 100, quantity := 36 / 100, profit := 0,
    profitPercent := 0, reason := "End of backtest period",
    entryTime := 600000, exitTime := 600000, duration := 0, fees := 0 }

/-- Evaluation of the witness run: one entry at candle 10, position still
open at the end of the data, closed by the end-of-period cleanup. -/
lemma wRun_eval :
    (simulate wCfg wBuyStrat wDate wCandles).results.trades = [wEndTrade] ∧
    (simulate wCfg wBuyStrat wDate wCandles).results.balance = 200 := by
  norm_num [simulate, loopFinal, simLoop, stepCandle, trackLast, resetDaily,
    signalPhase, exitChecks, updateDrawdown, closeEndOfPeriod, initState,
    minHistory, MAX_TRADES, wCfg, wCandles, wCandle, wBuyStrat, wDate,
    wEndTrade]

/-- Witness for C1: a run with one complete trade, no liquidation; the final
balance is the initial balance plus the net profit sum. -/
theorem conservation_no_liquidation_witness :
    (∀ t ∈ (simulate wCfg wBuyStrat wDate wCandles).results.trades,
      t.reason ≠ "LIQUIDATION") ∧
    (simulate wCfg wBuyStrat wDate wCandles).results.balance =
      wCfg.initialBalance +
        tradesPnl (simulate wCfg wBuyStrat wDate wCandles).results.trades :=
  have h1 : ∀ t ∈ (simulate wCfg wBuyStrat wDate wCandles).results.trades,
      t.reason ≠ "LIQUIDATION" := by
    rw [wRun_eval.1]; decide
  ⟨h1, conservation_no_liquidation wCfg wBuyStrat wDate wCandles h1⟩

/-!
Characterization of the individual close/entry branches.
-/

/-- The trade record that every normal (non-liquidation) close path of the
source builds for a position `p` closed at fill price `xp` with reason `r`
at time `ts`: gross profit is the exit value minus the position value at
entry, the exit fee is the exit value times the taker fee rate, the recorded
fees are entry fee plus exit fee, and the recorded (net) profit is the gross
profit minus both fees. -/
def closeTradeSpec (cfg : Config) (p : Position) (xp : ℚ) (r : String)
    (ts : Nat) : Trade :=
  { entry := p.entryPrice, exit := xp, quantity := p.quantity,
    profit := p.quantity * xp - p.positionValue -
      (p.entryFee + p.quantity * xp * cfg.takerFee),
    profitPercent := (p.quantity * xp - p.positionValue) / p.positionValue * 100,
    reason := r, entryTime := p.entryTime, exitTime := ts,
    duration := ((ts : ℚ) - (p.entryTime : ℚ)) / 1000 / 60,
    fees := p.entryFee + p.quantity * xp * cfg.takerFee }

/-- The trade record built by the liquidation branch: the whole margin and
the entry fee are lost, the profit percentage is written as -100, and only
the entry fee is recorded as fees. -/
def liqTrade (p : Position) (xp : ℚ) (ts : Nat) : Trade :=
  { entry := p.entryPrice, exit := xp, quantity := p.quantity,
    profit := -p.marginUsed - p.entryFee, profitPercent := -100,
    reason := "LIQUIDATION", entryTime := p.entryTime, exitTime := ts,
    duration := ((ts : ℚ) - (p.entryTime : ℚ)) / 1000 / 60,
    fees := p.entryFee }

/-- With an open position and a signal other than SELL, the signal-driven
block does nothing (the entry branch requires a flat position, and the exit
branch requires a SELL action). -/
lemma signalPhase_skip_of_position (cfg : Config) (strat : Strategy)
    (candles : List Candle) (i : Nat) (st : SimState) (p : Position)
    (hp : st.position = some p)
    (hs : (strat.analyze (candles.take (i + 1)) st.position).action ≠ "SELL") :
    signalPhase cfg strat candles i st = (st, false) := by
  simp only [signalPhase]
  rw [if_neg (by simp [hp]), if_neg hs]

/-- With a flat position and a signal other than BUY, the signal-driven
block does nothing. -/
lemma signalPhase_skip_of_flat (cfg : Config) (strat : Strategy)
    (candles : List Candle) (i : Nat) (st : SimState)
    (hp : st.position = none)
    (hs : (strat.analyze (candles.take (i + 1)) st.position).action ≠ "BUY") :
    signalPhase cfg strat candles i st = (st, false) := by
  simp only [signalPhase]
  rw [if_neg (by simp [hs])]
  split_ifs
  · rw [hp]
  · rfl

/-- With a flat position, a BUY signal, but the daily-trade gate closed, the
signal-driven block does nothing. -/
lemma signalPhase_skip_of_gate (cfg : Config) (strat : Strategy)
    (candles : List Candle) (i : Nat) (st : SimState)
    (hp : st.position = none)
    (hg : ¬st.dailyTrades < cfg.maxDailyLosses) :
    signalPhase cfg strat candles i st = (st, false) := by
  simp only [signalPhase]
  rw [if_neg (by simp [hg])]
  split_ifs
  · rw [hp]
  · rfl

/-- Characterization of the SELL branch: with an open position `p` and a
SELL signal the block closes at the candle close price, crediting margin
plus gross profit minus exit fee, appending exactly the close trade, and
clearing the position; the daily-loss counter increments exactly when the
net profit is negative. -/
lemma signalPhase_sell (cfg : Config) (strat : Strategy)
    (candles : List Candle) (i : Nat) (st : SimState) (p : Position)
    (hp : st.position = some p)
    (hs : (strat.analyze (candles.take (i + 1)) st.position).action = "SELL") :
    (signalPhase cfg strat candles i st).2 = false ∧
    (signalPhase cfg strat candles i st).1.results.balance =
      st.results.balance + p.marginUsed +
        (p.quantity * (candles.getD i default).close - p.positionValue) -
        p.quantity * (candles.getD i default).close * cfg.takerFee ∧
    (signalPhase cfg strat candles i st).1.results.trades =
      st.results.trades ++
        [closeTradeSpec cfg p (candles.getD i default).close
          (strat.analyze (candles.take (i + 1)) st.position).reason
          (candles.getD i default).timestamp] ∧
    (signalPhase cfg strat candles i st).1.position = none ∧
    (signalPhase cfg strat candles i st).1.dailyTrades =
      (if (closeTradeSpec cfg p (candles.getD i default).close
          (strat.analyze (candles.take (i + 1)) st.position).reason
          (candles.getD i default).timestamp).profit < 0 then
        st.dailyTrades + 1 else st.dailyTrades) ∧
    (signalPhase cfg strat candles i st).1.results.peakBalance =
      st.results.peakBalance ∧
    (signalPhase cfg strat candles i st).1.results.maxDrawdown =
      st.results.maxDrawdown := by
  simp only [signalPhase, hp]
  rw [if_neg (by simp [hs]), if_pos (by rw [hp] at hs; exact hs)]
  split_ifs with hneg <;>
    simp_all [closeTradeSpec, hp, mul_comm] <;> linarith

/-- The per-candle exit block does nothing when no position is open. -/
lemma exitChecks_flat (cfg : Config) (candles : List Candle) (i : Nat)
    (st : SimState) (hp : st.position = none) :
    exitChecks cfg candles i st = st := by
  simp only [exitChecks, hp]

/-- Characterization of the liquidation branch of the per-candle exit
block. -/
lemma exitChecks_liquidation (cfg : Config) (candles : List Candle) (i : Nat)
    (st : SimState) (p : Position) (hp : st.position = some p)
    (hliq : p.quantity * (candles.getD i default).close - p.positionValue ≤
      -p.marginUsed * (9 / 10)) :
    exitChecks cfg candles i st =
      { st with
        results := { st.results with
          balance := st.results.balance + 0,
          trades := st.results.trades ++
            [liqTrade p (candles.getD i default).close
              (candles.getD i default).timestamp] },
        position := none } := by
  simp only [exitChecks, hp]
  rw [if_pos hliq]
  rfl

/-- Characterization of the stop-loss / take-profit branch of the per-candle
exit block: the fill price is the configured threshold (stop loss when the
candle close breaches it, else take profit), the close accounting is the
standard one at that price, and the daily counter increments exactly when
the net profit is negative. -/
lemma exitChecks_stopTake (cfg : Config) (candles : List Candle) (i : Nat)
    (st : SimState) (p : Position) (hp : st.position = some p)
    (hnl : ¬(p.quantity * (candles.getD i default).close - p.positionValue ≤
      -p.marginUsed * (9 / 10)))
    (hhit : (candles.getD i default).close ≤ p.stopLoss ∨
      p.takeProfit ≤ (candles.getD i default).close) :
    (exitChecks cfg candles i st).results.balance =
      st.results.balance + p.marginUsed +
        (p.quantity * (if (candles.getD i default).close ≤ p.stopLoss then
          p.stopLoss else p.takeProfit) - p.positionValue) -
        p.quantity * (if (candles.getD i default).close ≤ p.stopLoss then
          p.stopLoss else p.takeProfit) * cfg.takerFee ∧
    (exitChecks cfg candles i st).results.trades =
      st.results.trades ++
        [closeTradeSpec cfg p
          (if (candles.getD i default).close ≤ p.stopLoss then p.stopLoss
            else p.takeProfit)
          (if (candles.getD i default).close ≤ p.stopLoss then "Stop Loss"
            else "Take Profit")
          (candles.getD i default).timestamp] ∧
    (exitChecks cfg candles i st).position = none ∧
    (exitChecks cfg candles i st).dailyTrades =
      (if (closeTradeSpec cfg p
          (if (candles.getD i default).close ≤ p.stopLoss then p.stopLoss
            else p.takeProfit)
          (if (candles.getD i default).close ≤ p.stopLoss then "Stop Loss"
            else "Take Profit")
          (candles.getD i default).timestamp).profit < 0 then
        st.dailyTrades + 1 else st.dailyTrades) ∧
    (exitChecks cfg candles i st).results.peakBalance =
      st.results.peakBalance ∧
    (exitChecks cfg candles i st).results.maxDrawdown =
      st.results.maxDrawdown := by
  simp only [exitChecks, hp]
  rw [if_neg hnl, if_pos hhit]
  split_ifs <;> simp_all [closeTradeSpec] <;> linarith

/-- The per-candle exit block does nothing when the position neither
breaches the liquidation threshold nor hits a stop/take-profit level. -/
lemma exitChecks_hold (cfg : Config) (candles : List Candle) (i : Nat)
    (st : SimState) (p : Position) (hp : st.position = some p)
    (hnl : ¬(p.quantity * (candles.getD i default).close - p.positionValue ≤
      -p.marginUsed * (9 / 10)))
    (hnh : ¬((candles.getD i default).close ≤ p.stopLoss ∨
      p.takeProfit ≤ (candles.getD i default).close)) :
    exitChecks cfg candles i st = st := by
  simp only [exitChecks, hp]
  rw [if_neg hnl, if_neg hnh]

/-- The daily trade counter right after the day-change reset of candle `i`:
zero when the calendar day changed, otherwise the incoming value. -/
def dailyBase (cfg : Config) (getDate : Nat → Nat) (candles : List Candle)
    (i : Nat) (st : SimState) : Nat :=
  if minHistory cfg < i ∧
      getDate (candles.getD i default).timestamp ≠
        getDate (candles.getD (i - 1) default).timestamp then 0
  else st.dailyTrades

lemma resetDaily_dailyTrades (cfg : Config) (getDate : Nat → Nat)
    (candles : List Candle) (i : Nat) (st : SimState) :
    (resetDaily cfg getDate candles i st).dailyTrades =
      dailyBase cfg getDate candles i st := by
  simp only [resetDaily, dailyBase]
  split_ifs <;> simp_all

/-- Abbreviation for the state right before the signal-driven block of
candle `i`: last-candle tracking and daily reset applied. -/
def preStep (cfg : Config) (getDate : Nat → Nat) (candles : List Candle)
    (i : Nat) (st : SimState) : SimState :=
  resetDaily cfg getDate candles i (trackLast (candles.getD i default) st)

lemma preStep_eq (cfg : Config) (getDate : Nat → Nat) (candles : List Candle)
    (i : Nat) (st : SimState) :
    resetDaily cfg getDate candles i (trackLast (candles.getD i default) st) =
      preStep cfg getDate candles i st := rfl

lemma preStep_position (cfg : Config) (getDate : Nat → Nat)
    (candles : List Candle) (i : Nat) (st : SimState) :
    (preStep cfg getDate candles i st).position = st.position := by
  rw [preStep, resetDaily_position, trackLast_position]

lemma preStep_results (cfg : Config) (getDate : Nat → Nat)
    (candles : List Candle) (i : Nat) (st : SimState) :
    (preStep cfg getDate candles i st).results = st.results := by
  rw [preStep, resetDaily_results, trackLast_results]

lemma preStep_dailyTrades (cfg : Config) (getDate : Nat → Nat)
    (candles : List Candle) (i : Nat) (st : SimState) :
    (preStep cfg getDate candles i st).dailyTrades =
      dailyBase cfg getDate candles i st := by
  rw [preStep, resetDaily_dailyTrades]
  simp [dailyBase, trackLast]

/-- A loop step whose signal is not SELL while a position is open reduces to
the per-candle exit block followed by the drawdown update. -/
lemma stepCandle_exitPath (cfg : Config) (strat : Strategy)
    (getDate : Nat → Nat) (candles : List Candle) (i : Nat) (st : SimState)
    (p : Position) (hp : st.position = some p)
    (hs : (strat.analyze (candles.take (i + 1)) st.position).action ≠ "SELL") :
    stepCandle cfg strat getDate candles i st =
      updateDrawdown (exitChecks cfg candles i
        (preStep cfg getDate candles i st)) := by
  have hp1 : (preStep cfg getDate candles i st).position = some p := by
    rw [preStep_position]; exact hp
  have hs1 : (strat.analyze (candles.take (i + 1))
      (preStep cfg getDate candles i st).position).action ≠ "SELL" := by
    rw [preStep_position]; exact hs
  simp only [stepCandle, preStep_eq]
  rw [signalPhase_skip_of_position cfg strat candles i _ p hp1 hs1]
  simp

/-- A loop step with a flat position and a signal other than BUY reduces to
the drawdown update alone. -/
lemma stepCandle_holdFlat (cfg : Config) (strat : Strategy)
    (getDate : Nat → Nat) (candles : List Candle) (i : Nat) (st : SimState)
    (hp : st.position = none)
    (hs : (strat.analyze (candles.take (i + 1)) st.position).action ≠ "BUY") :
    stepCandle cfg strat getDate candles i st =
      updateDrawdown (preStep cfg getDate candles i st) := by
  have hp1 : (preStep cfg getDate candles i st).position = none := by
    rw [preStep_position]; exact hp
  have hs1 : (strat.analyze (candles.take (i + 1))
      (preStep cfg getDate candles i st).position).action ≠ "BUY" := by
    rw [preStep_position]; exact hs
  simp only [stepCandle, preStep_eq]
  rw [signalPhase_skip_of_flat cfg strat candles i _ hp1 hs1]
  simp [exitChecks_flat cfg candles i _ hp1]

/-- A loop step that closes by SELL signal: full characterization of the
resulting balance, trade list, position, and daily counter. -/
lemma stepCandle_sell (cfg : Config) (strat : Strategy) (getDate : Nat → Nat)
    (candles : List Candle) (i : Nat) (st : SimState) (p : Position)
    (hp : st.position = some p)
    (hs : (strat.analyze (candles.take (i + 1)) st.position).action = "SELL") :
    (stepCandle cfg strat getDate candles i st).results.balance =
      st.results.balance + p.marginUsed +
        (p.quantity * (candles.getD i default).close - p.positionValue) -
        p.quantity * (candles.getD i default).close * cfg.takerFee ∧
    (stepCandle cfg strat getDate candles i st).results.trades =
      st.results.trades ++
        [closeTradeSpec cfg p (candles.getD i default).close
          (strat.analyze (candles.take (i + 1)) st.position).reason
          (candles.getD i default).timestamp] ∧
    (stepCandle cfg strat getDate candles i st).position = none ∧
    (stepCandle cfg strat getDate candles i st).dailyTrades =
      (if (closeTradeSpec cfg p (candles.getD i default).close
          (strat.analyze (candles.take (i + 1)) st.position).reason
          (candles.getD i default).timestamp).profit < 0 then
        dailyBase cfg getDate candles i st + 1
      else dailyBase cfg getDate candles i st) := by
  have hp1 : (preStep cfg getDate candles i st).position = some p := by
    rw [preStep_position]; exact hp
  have hs1 : (strat.analyze (candles.take (i + 1))
      (preStep cfg getDate candles i st).position).action = "SELL" := by
    rw [preStep_position]; exact hs
  have hchar := signalPhase_sell cfg strat candles i
    (preStep cfg getDate candles i st) p hp1 hs1
  simp only [stepCandle, preStep_eq]
  rw [hchar.1]
  simp only [Bool.false_eq_true, if_false]
  rw [exitChecks_flat cfg candles i _ hchar.2.2.2.1]
  have hd := updateDrawdown_core (signalPhase cfg strat candles i
    (preStep cfg getDate candles i st)).1
  rw [hd.1, hd.2.1, hd.2.2.1, hd.2.2.2.1]
  rw [hchar.2.1, hchar.2.2.1, hchar.2.2.2.2.1]
  rw [preStep_results, preStep_position, preStep_dailyTrades]
  exact ⟨rfl, rfl, hchar.2.2.2.1, rfl⟩

/-- C2. Whenever an open position `p` is closed at an exit price — the
candle close for a SELL signal, the configured threshold for the independent
stop-loss / take-profit check, or the last candle close for the
end-of-period cleanup — the simulation computes the exit value as
`quantity * exitPrice`, charges the exit fee `exitValue * takerFee`, credits
the balance with exactly `marginUsed + grossProfit - exitFee`, appends one
trade whose net profit is `grossProfit - (entryFee + exitFee)` and whose
fees are `entryFee + exitFee`, and clears the position; the entry fee,
debited at entry, is not debited again. -/
theorem close_accounting (cfg : Config) (strat : Strategy)
    (getDate : Nat → Nat) (candles : List Candle) (i : Nat) (st : SimState)
    (p : Position) (hp : st.position = some p) :
    ((strat.analyze (candles.take (i + 1)) st.position).action = "SELL" →
      (stepCandle cfg strat getDate candles i st).results.balance =
        st.results.balance + p.marginUsed +
          (p.quantity * (candles.getD i default).close - p.positionValue) -
          p.quantity * (candles.getD i default).close * cfg.takerFee ∧
      (stepCandle cfg strat getDate candles i st).results.trades =
        st.results.trades ++
          [closeTradeSpec cfg p (candles.getD i default).close
            (strat.analyze (candles.take (i + 1)) st.position).reason
            (candles.getD i default).timestamp] ∧
      (stepCandle cfg strat getDate candles i st).position = none) ∧
    ((strat.analyze (candles.take (i + 1)) st.position).action ≠ "SELL" →
      ¬(p.quantity * (candles.getD i default).close - p.positionValue ≤
        -p.marginUsed * (9 / 10)) →
      ((candles.getD i default).close ≤ p.stopLoss ∨
        p.takeProfit ≤ (candles.getD i default).close) →
      (stepCandle cfg strat getDate candles i st).results.balance =
        st.results.balance + p.marginUsed +
          (p.quantity * (if (candles.getD i default).close ≤ p.stopLoss then
            p.stopLoss else p.takeProfit) - p.positionValue) -
          p.quantity * (if (candles.getD i default).close ≤ p.stopLoss then
            p.stopLoss else p.takeProfit) * cfg.takerFee ∧
      (stepCandle cfg strat getDate candles i st).results.trades =
        st.results.trades ++
          [closeTradeSpec cfg p
            (if (candles.getD i default).close ≤ p.stopLoss then p.stopLoss
              else p.takeProfit)
            (if (candles.getD i default).close ≤ p.stopLoss then "Stop Loss"
              else "Take Profit")
            (candles.getD i default).timestamp] ∧
      (stepCandle cfg strat getDate candles i st).position = none) ∧
    (∀ lc, st.lastCandle = some lc →
      (closeEndOfPeriod cfg st).results.balance =
        st.results.balance + p.marginUsed +
          (p.quantity * lc.close - p.positionValue) -
          p.quantity * lc.close * cfg.takerFee ∧
      (closeEndOfPeriod cfg st).results.trades =
        st.results.trades ++
          [closeTradeSpec cfg p lc.close "End of backtest period"
            (st.lastTimestamp.getD 0)] ∧
      (closeEndOfPeriod cfg st).position = none) := by
  refine ⟨?_, ?_, ?_⟩
  · intro hs
    have h := stepCandle_sell cfg strat getDate candles i st p hp hs
    exact ⟨h.1, h.2.1, h.2.2.1⟩
  · intro hs hnl hhit
    have hp1 : (preStep cfg getDate candles i st).position = some p := by
      rw [preStep_position]; exact hp
    have hchar := exitChecks_stopTake cfg candles i
      (preStep cfg getDate candles i st) p hp1 hnl hhit
    rw [stepCandle_exitPath cfg strat getDate candles i st p hp hs]
    have hd := updateDrawdown_core (exitChecks cfg candles i
      (preStep cfg getDate candles i st))
    rw [hd.1, hd.2.1, hd.2.2.1, hchar.1, hchar.2.1, preStep_results]
    exact ⟨rfl, rfl, hchar.2.2.1⟩
  · intro lc hlc
    simp [closeEndOfPeriod, hp, hlc, closeTradeSpec]

/-- Strategy that always emits SELL (used by the close-path witnesses). -/
def wSellStrat : Strategy :=
  { analyze := fun _ _ => { action := "SELL", reason := "witness sell" },
    calculateExitPrices := fun price =>
      { stopLoss := price, takeProfit := price },
    calculatePositionSize := fun _ _ _ =>
      { quantity := 0, positionValue := 0 } }

/-- An open position far away from its stop, take-profit and liquidation
levels at price 100. -/
def wPosA : Position :=
  { entryPrice := 90, quantity := 1, stopLoss := 1, takeProfit := 1000,
    entryTime := 0, positionValue := 90, marginUsed := 90, leverage := 1,
    entryFee := 0 }

/-- A simulation state holding `wPosA` open. -/
def wStA : SimState :=
  { results := { trades := [], balance := 100, initialBalance := 200,
                 peakBalance := 200, maxDrawdown := 0 },
    position := some wPosA, dailyTrades := 0, dailyLoss := 0,
    lastCandle := some (wCandle 5), lastTimestamp := some 300000 }

/-- A position whose stop loss (150) is breached by the candle close 100
while the liquidation threshold is not. -/
def wPosB : Position :=
  { entryPrice := 100, quantity := 1, stopLoss := 150, takeProfit := 1000,
    entryTime := 0, positionValue := 100, marginUsed := 50, leverage := 1,
    entryFee := 0 }

/-- A simulation state holding `wPosB` open. -/
def wStB : SimState :=
  { results := { trades := [], balance := 100, initialBalance := 200,
                 peakBalance := 200, maxDrawdown := 0 },
    position := some wPosB, dailyTrades := 0, dailyLoss := 0,
    lastCandle := some (wCandle 5), lastTimestamp := some 300000 }

/-- Witness for C2: the three close paths applied at concrete inputs all
clear the position. -/
theorem close_accounting_witness :
    (stepCandle wCfg wSellStrat wDate wCandles 0 wStA).position = none ∧
    (stepCandle wCfg wHoldStrat wDate wCandles 0 wStB).position = none ∧
    (closeEndOfPeriod wCfg wStA).position = none :=
  ⟨((close_accounting wCfg wSellStrat wDate wCandles 0 wStA wPosA rfl).1
      rfl).2.2,
   ((close_accounting wCfg wHoldStrat wDate wCandles 0 wStB wPosB rfl).2.1
      (by decide)
      (by norm_num [wPosB, wCandles, wCandle])
      (by norm_num [wPosB, wCandles, wCandle])).2.2,
   ((close_accounting wCfg wSellStrat wDate wCandles 0 wStA wPosA rfl).2.2
      (wCandle 5) rfl).2.2⟩

/-- C3. On a candle where a position `p` is open when the per-candle exit
block runs (the signal of the candle is not SELL — a SELL would already have
closed the position), liquidation fires exactly when
`unrealizedPnL = quantity * close - positionValueAtEntry` is at most
`-marginUsed * 9/10`; on liquidation nothing is credited back to the balance,
and the recorded trade has reason LIQUIDATION, net profit exactly
`-(marginUsed + entryFee)`, profit percent -100, and only the entry fee as
fees. When the threshold is not breached, no LIQUIDATION trade is
recorded. -/
theorem liquidation_rule (cfg : Config) (strat : Strategy)
    (getDate : Nat → Nat) (candles : List Candle) (i : Nat) (st : SimState)
    (p : Position) (hp : st.position = some p)
    (hs : (strat.analyze (candles.take (i + 1)) st.position).action ≠ "SELL") :
    (p.quantity * (candles.getD i default).close - p.positionValue ≤
        -p.marginUsed * (9 / 10) →
      (stepCandle cfg strat getDate candles i st).results.balance =
        st.results.balance ∧
      (stepCandle cfg strat getDate candles i st).results.trades =
        st.results.trades ++
          [liqTrade p (candles.getD i default).close
            (candles.getD i default).timestamp] ∧
      (stepCandle cfg strat getDate candles i st).position = none ∧
      (liqTrade p (candles.getD i default).close
        (candles.getD i default).timestamp).profit =
          -(p.marginUsed + p.entryFee) ∧
      (liqTrade p (candles.getD i default).close
        (candles.getD i default).timestamp).profitPercent = -100 ∧
      (liqTrade p (candles.getD i default).close
        (candles.getD i default).timestamp).fees = p.entryFee) ∧
    (¬(p.quantity * (candles.getD i default).close - p.positionValue ≤
        -p.marginUsed * (9 / 10)) →
      ∀ t ∈ (stepCandle cfg strat getDate candles i st).results.trades,
        t ∈ st.results.trades ∨ t.reason ≠ "LIQUIDATION") := by
  have hp1 : (preStep cfg getDate candles i st).position = some p := by
    rw [preStep_position]; exact hp
  rw [stepCandle_exitPath cfg strat getDate candles i st p hp hs]
  have hd := updateDrawdown_core (exitChecks cfg candles i
    (preStep cfg getDate candles i st))
  constructor
  · intro hliq
    rw [hd.1, hd.2.1, hd.2.2.1,
      exitChecks_liquidation cfg candles i _ p hp1 hliq]
    rw [preStep_results]
    refine ⟨by ring, rfl, rfl, by simp [liqTrade]; ring, rfl, rfl⟩
  · intro hnl t ht
    rw [hd.2.1] at ht
    by_cases hhit : (candles.getD i default).close ≤ p.stopLoss ∨
        p.takeProfit ≤ (candles.getD i default).close
    · have hchar := exitChecks_stopTake cfg candles i
        (preStep cfg getDate candles i st) p hp1 hnl hhit
      rw [hchar.2.1, preStep_results] at ht
      rcases List.mem_append.mp ht with h | h
      · exact Or.inl h
      · right
        rcases List.mem_singleton.mp h with rfl
        split_ifs <;> simp [closeTradeSpec]
    · rw [exitChecks_hold cfg candles i _ p hp1 hnl hhit,
        preStep_results] at ht
      exact Or.inl ht

/-- A leveraged position that is past its liquidation threshold at price
100: unrealized loss 100 against margin 100. -/
def wPosL : Position :=
  { entryPrice := 200, quantity := 1, stopLoss := 0, takeProfit := 100000,
    entryTime := 0, positionValue := 200, marginUsed := 100, leverage := 2,
    entryFee := 1 }

/-- A simulation state holding `wPosL` open. -/
def wStL : SimState :=
  { results := { trades := [], balance := 100, initialBalance := 200,
                 peakBalance := 200, maxDrawdown := 0 },
    position := some wPosL, dailyTrades := 0, dailyLoss := 0,
    lastCandle := some (wCandle 5), lastTimestamp := some 300000 }

/-- Witness for C3: a breached threshold liquidates without crediting the
balance, an unbreached one records no LIQUIDATION trade. -/
theorem liquidation_rule_witness :
    ((stepCandle wCfg wHoldStrat wDate wCandles 0 wStL).results.balance =
        wStL.results.balance ∧
      (stepCandle wCfg wHoldStrat wDate wCandles 0 wStL).position = none) ∧
    (∀ t ∈ (stepCandle wCfg wHoldStrat wDate wCandles 0 wStB).results.trades,
      t ∈ wStB.results.trades ∨ t.reason ≠ "LIQUIDATION") :=
  have h1 := (liquidation_rule wCfg wHoldStrat wDate wCandles 0 wStL wPosL
    rfl (by decide)).1 (by norm_num [wPosL, wCandles, wCandle])
  have h2 := (liquidation_rule wCfg wHoldStrat wDate wCandles 0 wStB wPosB
    rfl (by decide)).2 (by norm_num [wPosB, wCandles, wCandle])
  ⟨⟨h1.1, h1.2.2.1⟩, h2⟩

/-- The signal-driven block either leaves the trade list alone or appends
exactly one trade while clearing the position. -/
lemma signalPhase_trades_cases (cfg : Config) (strat : Strategy)
    (candles : List Candle) (i : Nat) (st : SimState) :
    (signalPhase cfg strat candles i st).1.results.trades =
        st.results.trades ∨
      ∃ t, (signalPhase cfg strat candles i st).1.results.trades =
          st.results.trades ++ [t] ∧
        (signalPhase cfg strat candles i st).1.position = none := by
  cases hpos : st.position with
  | none =>
    simp only [signalPhase, hpos]
    split_ifs <;> exact Or.inl rfl
  | some p =>
    simp only [signalPhase, hpos]
    rw [if_neg (by simp)]
    split_ifs <;>
      first
        | exact Or.inl rfl
        | exact Or.inr ⟨_, rfl, rfl⟩

/-- The per-candle exit block either leaves the trade list alone or appends
exactly one trade. -/
lemma exitChecks_trades_cases (cfg : Config) (candles : List Candle)
    (i : Nat) (st : SimState) :
    (exitChecks cfg candles i st).results.trades = st.results.trades ∨
      ∃ t, (exitChecks cfg candles i st).results.trades =
        st.results.trades ++ [t] := by
  cases hpos : st.position with
  | none => exact Or.inl (by rw [exitChecks_flat cfg candles i st hpos])
  | some p =>
    simp only [exitChecks, hpos]
    split_ifs <;>
      first
        | exact Or.inl rfl
        | exact Or.inr ⟨_, rfl⟩

/-- Per loop step the trade list grows by at most one trade. -/
lemma stepCandle_trades_cases (cfg : Config) (strat : Strategy)
    (getDate : Nat → Nat) (candles : List Candle) (i : Nat) (st : SimState) :
    ∃ ts, (stepCandle cfg strat getDate candles i st).results.trades =
      st.results.trades ++ ts ∧ ts.length ≤ 1 := by
  simp only [stepCandle, preStep_eq]
  have hres1 := preStep_results cfg getDate candles i st
  rcases signalPhase_trades_cases cfg strat candles i
      (preStep cfg getDate candles i st) with h | ⟨t, ht, hposn⟩
  · rw [hres1] at h
    split
    · exact ⟨[], by rw [h, List.append_nil], by simp⟩
    · rcases exitChecks_trades_cases cfg candles i
          (signalPhase cfg strat candles i
            (preStep cfg getDate candles i st)).1 with h2 | ⟨t2, ht2⟩
      · exact ⟨[], by rw [(updateDrawdown_core _).2.1, h2, h,
          List.append_nil], by simp⟩
      · exact ⟨[t2], by rw [(updateDrawdown_core _).2.1, ht2, h], by simp⟩
  · rw [hres1] at ht
    split
    · exact ⟨[t], ht, by simp⟩
    · rw [exitChecks_flat cfg candles i _ hposn]
      exact ⟨[t], by rw [(updateDrawdown_core _).2.1, ht], by simp⟩

/-- C4 counterexample: a candle on which a position is open, the liquidation
threshold is breached, AND the strategy emits SELL records the SELL trade
with the signal reason, not a LIQUIDATION trade — the SELL branch runs
before the liquidation check in the source, contradicting the claimed
priority order liquidation over SELL. -/
theorem close_priority_counterexample :
    wStL.position = some wPosL ∧
    wPosL.quantity * (wCandles.getD 0 default).close - wPosL.positionValue ≤
      -wPosL.marginUsed * (9 / 10) ∧
    (wSellStrat.analyze (wCandles.take (0 + 1)) wStL.position).action =
      "SELL" ∧
    List.map (fun t => t.reason)
      (stepCandle wCfg wSellStrat wDate wCandles 0 wStL).results.trades =
      ["witness sell"] ∧
    "witness sell" ≠ "LIQUIDATION" := by
  refine ⟨rfl, by norm_num [wPosL, wCandles, wCandle], rfl, ?_, by decide⟩
  rw [(stepCandle_sell wCfg wSellStrat wDate wCandles 0 wStL wPosL rfl
    rfl).2.1]
  simp [wStL, wSellStrat, closeTradeSpec]

/-- C4 (amended). On any single candle at most one close event is realized,
and when several close conditions are simultaneously true the realized close
follows the priority order: explicit SELL signal, then liquidation, then
stop-loss, then take-profit. In particular, with an open position, a
breached liquidation threshold, and a SELL signal on the same candle, the
recorded trade carries the SELL signal reason (the source checks the SELL
branch first), not LIQUIDATION. -/
theorem close_priority_amended (cfg : Config) (strat : Strategy)
    (getDate : Nat → Nat) (candles : List Candle) (i : Nat) (st : SimState) :
    (∃ ts, (stepCandle cfg strat getDate candles i st).results.trades =
      st.results.trades ++ ts ∧ ts.length ≤ 1) ∧
    (∀ p, st.position = some p →
      ((strat.analyze (candles.take (i + 1)) st.position).action = "SELL" →
        (stepCandle cfg strat getDate candles i st).results.trades =
          st.results.trades ++
            [closeTradeSpec cfg p (candles.getD i default).close
              (strat.analyze (candles.take (i + 1)) st.position).reason
              (candles.getD i default).timestamp]) ∧
      ((strat.analyze (candles.take (i + 1)) st.position).action ≠ "SELL" →
        (p.quantity * (candles.getD i default).close - p.positionValue ≤
            -p.marginUsed * (9 / 10) →
          (stepCandle cfg strat getDate candles i st).results.trades =
            st.results.trades ++
              [liqTrade p (candles.getD i default).close
                (candles.getD i default).timestamp]) ∧
        (¬(p.quantity * (candles.getD i default).close - p.positionValue ≤
            -p.marginUsed * (9 / 10)) →
          (candles.getD i default).close ≤ p.stopLoss →
          (stepCandle cfg strat getDate candles i st).results.trades =
            st.results.trades ++
              [closeTradeSpec cfg p p.stopLoss "Stop Loss"
                (candles.getD i default).timestamp]) ∧
        (¬(p.quantity * (candles.getD i default).close - p.positionValue ≤
            -p.marginUsed * (9 / 10)) →
          ¬(candles.getD i default).close ≤ p.stopLoss →
          p.takeProfit ≤ (candles.getD i default).close →
          (stepCandle cfg strat getDate candles i st).results.trades =
            st.results.trades ++
              [closeTradeSpec cfg p p.takeProfit "Take Profit"
                (candles.getD i default).timestamp]))) := by
  refine ⟨stepCandle_trades_cases cfg strat getDate candles i st, ?_⟩
  intro p hp
  have hp1 : (preStep cfg getDate candles i st).position = some p := by
    rw [preStep_position]; exact hp
  refine ⟨fun hs => (stepCandle_sell cfg strat getDate candles i st p hp
    hs).2.1, ?_⟩
  intro hs
  rw [stepCandle_exitPath cfg strat getDate candles i st p hp hs]
  have hd := updateDrawdown_core (exitChecks cfg candles i
    (preStep cfg getDate candles i st))
  refine ⟨?_, ?_, ?_⟩
  · intro hliq
    rw [hd.2.1, exitChecks_liquidation cfg candles i _ p hp1 hliq,
      preStep_results]
  · intro hnl hsl
    have hchar := exitChecks_stopTake cfg candles i
      (preStep cfg getDate candles i st) p hp1 hnl (Or.inl hsl)
    rw [hd.2.1, hchar.2.1, preStep_results, if_pos hsl, if_pos hsl]
  · intro hnl hsl htp
    have hchar := exitChecks_stopTake cfg candles i
      (preStep cfg getDate candles i st) p hp1 hnl (Or.inr htp)
    rw [hd.2.1, hchar.2.1, preStep_results, if_neg hsl, if_neg hsl]

/-- A position whose take-profit (90) is breached by the candle close 100
while its stop-loss (1) and liquidation threshold are not. -/
def wPosT : Position :=
  { entryPrice := 100, quantity := 1, stopLoss := 1, takeProfit := 90,
    entryTime := 0, positionValue := 100, marginUsed := 50, leverage := 1,
    entryFee := 0 }

/-- A simulation state holding `wPosT` open. -/
def wStT : SimState :=
  { results := { trades := [], balance := 100, initialBalance := 200,
                 peakBalance := 200, maxDrawdown := 0 },
    position := some wPosT, dailyTrades := 0, dailyLoss := 0,
    lastCandle := some (wCandle 5), lastTimestamp := some 300000 }

/-- Witness for the amended C4: all four priority cases at concrete
inputs. -/
theorem close_priority_amended_witness :
    (∃ ts, (stepCandle wCfg wSellStrat wDate wCandles 0 wStL).results.trades =
      wStL.results.trades ++ ts ∧ ts.length ≤ 1) ∧
    (stepCandle wCfg wSellStrat wDate wCandles 0 wStL).results.trades =
      wStL.results.trades ++
        [closeTradeSpec wCfg wPosL (wCandles.getD 0 default).close
          "witness sell" (wCandles.getD 0 default).timestamp] ∧
    (stepCandle wCfg wHoldStrat wDate wCandles 0 wStL).results.trades =
      wStL.results.trades ++
        [liqTrade wPosL (wCandles.getD 0 default).close
          (wCandles.getD 0 default).timestamp] ∧
    (stepCandle wCfg wHoldStrat wDate wCandles 0 wStB).results.trades =
      wStB.results.trades ++
        [closeTradeSpec wCfg wPosB wPosB.stopLoss "Stop Loss"
          (wCandles.getD 0 default).timestamp] ∧
    (stepCandle wCfg wHoldStrat wDate wCandles 0 wStT).results.trades =
      wStT.results.trades ++
        [closeTradeSpec wCfg wPosT wPosT.takeProfit "Take Profit"
          (wCandles.getD 0 default).timestamp] :=
  ⟨(close_priority_amended wCfg wSellStrat wDate wCandles 0 wStL).1,
   ((close_priority_amended wCfg wSellStrat wDate wCandles 0 wStL).2 wPosL
      rfl).1 rfl,
   (((close_priority_amended wCfg wHoldStrat wDate wCandles 0 wStL).2 wPosL
      rfl).2 (by decide)).1 (by norm_num [wPosL, wCandles, wCandle]),
   (((close_priority_amended wCfg wHoldStrat wDate wCandles 0 wStB).2 wPosB
      rfl).2 (by decide)).2.1 (by norm_num [wPosB, wCandles, wCandle])
      (by norm_num [wPosB, wCandles, wCandle]),
   (((close_priority_amended wCfg wHoldStrat wDate wCandles 0 wStT).2 wPosT
      rfl).2 (by decide)).2.2 (by norm_num [wPosT, wCandles, wCandle])
      (by norm_num [wPosT, wCandles, wCandle])
      (by norm_num [wPosT, wCandles, wCandle])⟩

/-- C5 (amended). Every run ends with no open position: when the loop
terminates (by exhausting the candles or by a safety gate) with a position
still open, the cleanup force-closes it at the last processed candle close
price, appending a final trade with reason "End of backtest period" and
exit time equal to the last processed candle timestamp. -/
theorem end_of_period_close (cfg : Config) (strat : Strategy)
    (getDate : Nat → Nat) (candles : List Candle) :
    (simulate cfg strat getDate candles).position = none ∧
    (∀ p, (loopFinal cfg strat getDate candles).position = some p →
      ∃ lc, (loopFinal cfg strat getDate candles).lastCandle = some lc ∧
        (simulate cfg strat getDate candles).results.trades =
          (loopFinal cfg strat getDate candles).results.trades ++
            [closeTradeSpec cfg p lc.close "End of backtest period"
              lc.timestamp] ∧
        (closeTradeSpec cfg p lc.close "End of backtest period"
          lc.timestamp).reason = "End of backtest period" ∧
        (closeTradeSpec cfg p lc.close "End of backtest period"
          lc.timestamp).exitTime = lc.timestamp ∧
        (closeTradeSpec cfg p lc.close "End of backtest period"
          lc.timestamp).exit = lc.close) := by
  refine ⟨simulate_position_none cfg strat getDate candles, ?_⟩
  intro p hp
  rcases lastOk_loopFinal cfg strat getDate candles with hnone | ⟨lc, hlc, hts⟩
  · rw [hp] at hnone; exact absurd hnone (by simp)
  · refine ⟨lc, hlc, ?_, rfl, rfl, rfl⟩
    show (closeEndOfPeriod cfg (loopFinal cfg strat getDate candles)).results.trades = _
    simp only [closeEndOfPeriod, hp, hlc, hts]
    simp [closeTradeSpec]

/-- The position opened by the witness run at candle 10 and still open when
the loop ends. -/
def wPos : Position :=
  { entryPrice := 100, quantity := 36 / 100, stopLoss := 50, takeProfit := 200,
    entryTime := 600000, positionValue := 36, marginUsed := 36, leverage := 1,
    entryFee := 0 }

/-- Loop-final state of the witness run: the position opened at candle 10 is
still open, the last processed candle is candle 10. -/
lemma wLoopFinal_eval :
    (loopFinal wCfg wBuyStrat wDate wCandles).position = some wPos ∧
    (loopFinal wCfg wBuyStrat wDate wCandles).lastCandle =
      some (wCandle 10) := by
  norm_num [loopFinal, simLoop, stepCandle, trackLast, resetDaily,
    signalPhase, exitChecks, updateDrawdown, initState, minHistory,
    MAX_TRADES, wCfg, wCandles, wCandle, wBuyStrat, wDate, wPos]

/-- C5 counterexample: the reason string recorded by the forced final close
is "End of backtest period", not the "End of period" asserted by the
claim. -/
theorem end_of_period_counterexample :
    (loopFinal wCfg wBuyStrat wDate wCandles).position = some wPos ∧
    List.map (fun t => t.reason)
      (simulate wCfg wBuyStrat wDate wCandles).results.trades =
      ["End of backtest period"] ∧
    "End of backtest period" ≠ "End of period" :=
  ⟨wLoopFinal_eval.1, by rw [wRun_eval.1]; decide, by decide⟩

/-- Witness for the amended C5: the witness run ends with an open position,
and the cleanup appends the end-of-period trade at the last candle. -/
theorem end_of_period_close_witness :
    (simulate wCfg wBuyStrat wDate wCandles).position = none ∧
    ∃ lc, (loopFinal wCfg wBuyStrat wDate wCandles).lastCandle = some lc ∧
      (simulate wCfg wBuyStrat wDate wCandles).results.trades =
        (loopFinal wCfg wBuyStrat wDate wCandles).results.trades ++
          [closeTradeSpec wCfg wPos lc.close "End of backtest period"
            lc.timestamp] ∧
      (closeTradeSpec wCfg wPos lc.close "End of backtest period"
        lc.timestamp).reason = "End of backtest period" ∧
      (closeTradeSpec wCfg wPos lc.close "End of backtest period"
        lc.timestamp).exitTime = lc.timestamp ∧
      (closeTradeSpec wCfg wPos lc.close "End of backtest period"
        lc.timestamp).exit = lc.close :=
  ⟨(end_of_period_close wCfg wBuyStrat wDate wCandles).1,
   (end_of_period_close wCfg wBuyStrat wDate wCandles).2 wPos
     wLoopFinal_eval.1⟩

/-- The leverage value actually used by the entry path
(source: `config.trading.leverage || 1`). -/
def effLeverage (cfg : Config) : ℚ :=
  if cfg.leverage = 0 then 1 else cfg.leverage

/-- The position size the strategy returns on the entry attempt of candle
`i` for a free balance `bal`. -/
def entrySize (cfg : Config) (strat : Strategy) (candles : List Candle)
    (i : Nat) (bal : ℚ) : PositionSize :=
  strat.calculatePositionSize (bal * effLeverage cfg)
    (candles.getD i default).close
    (strat.calculateExitPrices (candles.getD i default).close).stopLoss

/-- Margin required by the entry attempt of candle `i`. -/
def entryMarginReq (cfg : Config) (strat : Strategy) (candles : List Candle)
    (i : Nat) (bal : ℚ) : ℚ :=
  (entrySize cfg strat candles i bal).positionValue / effLeverage cfg

/-- Entry fee charged by the entry attempt of candle `i`. -/
def entryFeeReq (cfg : Config) (strat : Strategy) (candles : List Candle)
    (i : Nat) (bal : ℚ) : ℚ :=
  (entrySize cfg strat candles i bal).positionValue * cfg.makerFee

/-- The position record a successful entry at candle `i` creates. -/
def entryPosSpec (cfg : Config) (strat : Strategy) (candles : List Candle)
    (i : Nat) (bal : ℚ) : Position :=
  { entryPrice := (candles.getD i default).close,
    quantity := (entrySize cfg strat candles i bal).quantity,
    stopLoss :=
      (strat.calculateExitPrices (candles.getD i default).close).stopLoss,
    takeProfit :=
      (strat.calculateExitPrices (candles.getD i default).close).takeProfit,
    entryTime := (candles.getD i default).timestamp,
    positionValue := (entrySize cfg strat candles i bal).positionValue,
    marginUsed := entryMarginReq cfg strat candles i bal,
    leverage := effLeverage cfg,
    entryFee := entryFeeReq cfg strat candles i bal }

/-- Characterization of the entry attempt inside the signal-driven block:
with a flat position, a BUY signal, an open daily gate, and a position value
of at least 10, the attempt is skipped (via `continue`, leaving the state
untouched) exactly when the balance cannot cover margin plus entry fee, and
otherwise creates the position and debits margin plus entry fee in one
step. -/
lemma signalPhase_entry (cfg : Config) (strat : Strategy)
    (candles : List Candle) (i : Nat) (st : SimState)
    (hp : st.position = none)
    (hsig : (strat.analyze (candles.take (i + 1)) st.position).action = "BUY")
    (hg : st.dailyTrades < cfg.maxDailyLosses)
    (hval : 10 ≤
      (entrySize cfg strat candles i st.results.balance).positionValue) :
    (st.results.balance <
        entryMarginReq cfg strat candles i st.results.balance +
          entryFeeReq cfg strat candles i st.results.balance →
      signalPhase cfg strat candles i st = (st, true)) ∧
    (0 ≤ cfg.makerFee →
      ¬(st.results.balance <
        entryMarginReq cfg strat candles i st.results.balance +
          entryFeeReq cfg strat candles i st.results.balance) →
      signalPhase cfg strat candles i st =
        ({ st with
            position :=
              some (entryPosSpec cfg strat candles i st.results.balance),
            results := { st.results with
              balance := st.results.balance -
                (entryMarginReq cfg strat candles i st.results.balance +
                  entryFeeReq cfg strat candles i st.results.balance) } },
          false)) := by
  rw [hp] at hsig
  simp only [entrySize, effLeverage, entryMarginReq, entryFeeReq,
    entryPosSpec] at hval ⊢
  simp only [signalPhase, hp]
  have hcond : (strat.analyze (candles.take (i + 1)) none).action = "BUY" ∧
      True ∧ st.dailyTrades < cfg.maxDailyLosses := ⟨hsig, trivial, hg⟩
  set L := (if cfg.leverage = 0 then (1 : ℚ) else cfg.leverage) with hL
  set PS := strat.calculatePositionSize (st.results.balance * L)
    (candles.getD i default).close
    (strat.calculateExitPrices (candles.getD i default).close).stopLoss
    with hPS
  rw [if_pos hcond, if_pos hval]
  constructor
  · intro hins
    split_ifs <;> first | rfl | (exfalso; linarith)
  · intro hfee hins
    have h0 : (0 : ℚ) ≤ PS.positionValue * cfg.makerFee :=
      mul_nonneg (le_trans (by norm_num) hval) hfee
    split_ifs <;> first | rfl | (exfalso; linarith)

/-- C6. With a BUY signal, a flat position, an open daily gate, and a
position value of at least 10: when `balance < marginRequired + entryFee`
the entry fails before any mutation — the results object (balance, trade
list, drawdown fields) and the flat position are unchanged and the loop
continues with the next candle; only when `balance >= marginRequired +
entryFee` (with a nonnegative maker-fee rate, and provided the fresh
position does not close on its entry candle) is a position created, with
balance debited by exactly `marginRequired + entryFee` in one step and no
trade recorded. -/
theorem insufficient_balance_entry (cfg : Config) (strat : Strategy)
    (getDate : Nat → Nat) (candles : List Candle) (i : Nat) (st : SimState)
    (hp : st.position = none)
    (hsig : (strat.analyze (candles.take (i + 1)) st.position).action = "BUY")
    (hg : dailyBase cfg getDate candles i st < cfg.maxDailyLosses)
    (hval : 10 ≤
      (entrySize cfg strat candles i st.results.balance).positionValue) :
    (st.results.balance <
        entryMarginReq cfg strat candles i st.results.balance +
          entryFeeReq cfg strat candles i st.results.balance →
      (stepCandle cfg strat getDate candles i st).results = st.results ∧
      (stepCandle cfg strat getDate candles i st).position = none) ∧
    (0 ≤ cfg.makerFee →
      ¬(st.results.balance <
        entryMarginReq cfg strat candles i st.results.balance +
          entryFeeReq cfg strat candles i st.results.balance) →
      ¬((entryPosSpec cfg strat candles i st.results.balance).quantity *
            (candles.getD i default).close -
          (entryPosSpec cfg strat candles i st.results.balance).positionValue ≤
        -(entryPosSpec cfg strat candles i st.results.balance).marginUsed *
          (9 / 10)) →
      ¬((candles.getD i default).close ≤
          (entryPosSpec cfg strat candles i st.results.balance).stopLoss ∨
        (entryPosSpec cfg strat candles i st.results.balance).takeProfit ≤
          (candles.getD i default).close) →
      (stepCandle cfg strat getDate candles i st).position =
        some (entryPosSpec cfg strat candles i st.results.balance) ∧
      (stepCandle cfg strat getDate candles i st).results.balance =
        st.results.balance -
          (entryMarginReq cfg strat candles i st.results.balance +
            entryFeeReq cfg strat candles i st.results.balance) ∧
      (stepCandle cfg strat getDate candles i st).results.trades =
        st.results.trades) := by
  have hp1 : (preStep cfg getDate candles i st).position = none := by
    rw [preStep_position]; exact hp
  have hbal : (preStep cfg getDate candles i st).results.balance =
      st.results.balance := by rw [preStep_results]
  have hsig1 : (strat.analyze (candles.take (i + 1))
      (preStep cfg getDate candles i st).position).action = "BUY" := by
    rw [preStep_position]; exact hsig
  have hg1 : (preStep cfg getDate candles i st).dailyTrades <
      cfg.maxDailyLosses := by rw [preStep_dailyTrades]; exact hg
  have hent := signalPhase_entry cfg strat candles i
    (preStep cfg getDate candles i st) hp1 hsig1 hg1 (by rw [hbal]; exact hval)
  rw [hbal] at hent
  constructor
  · intro hins
    have h1 := hent.1 hins
    simp only [stepCandle, preStep_eq]
    rw [h1]
    simp only [if_true]
    exact ⟨preStep_results cfg getDate candles i st, hp1⟩
  · intro hfee hins hnoliq hnohit
    have h2 := hent.2 hfee hins
    simp only [stepCandle, preStep_eq]
    rw [h2]
    simp only [Bool.false_eq_true, if_false]
    rw [exitChecks_hold cfg candles i _
      (entryPosSpec cfg strat candles i st.results.balance) rfl hnoliq hnohit]
    have hd := updateDrawdown_core
      ({ preStep cfg getDate candles i st with
          position := some (entryPosSpec cfg strat candles i
            st.results.balance),
          results := { (preStep cfg getDate candles i st).results with
            balance := st.results.balance -
              (entryMarginReq cfg strat candles i st.results.balance +
                entryFeeReq cfg strat candles i st.results.balance) } })
    refine ⟨by rw [hd.2.2.1], by rw [hd.1], by
      rw [hd.2.1]
      show (preStep cfg getDate candles i st).results.trades =
        st.results.trades
      rw [preStep_results]⟩

/-- A flat state whose balance 20 cannot cover the margin 36 required by the
witness entry. -/
def wStPoor : SimState :=
  { results := { trades := [], balance := 20, initialBalance := 200,
                 peakBalance := 200, maxDrawdown := 0 },
    position := none, dailyTrades := 0, dailyLoss := 0,
    lastCandle := none, lastTimestamp := none }

/-- A flat state whose balance 200 covers the witness entry comfortably. -/
def wStRich : SimState :=
  { results := { trades := [], balance := 200, initialBalance := 200,
                 peakBalance := 200, maxDrawdown := 0 },
    position := none, dailyTrades := 0, dailyLoss := 0,
    lastCandle := none, lastTimestamp := none }

/-- Witness for C6: the poor state skips the entry leaving everything
untouched; the rich state opens the position and is debited margin plus
entry fee in one step. -/
theorem insufficient_balance_entry_witness :
    ((stepCandle wCfg wBuyStrat wDate wCandles 0 wStPoor).results =
        wStPoor.results ∧
      (stepCandle wCfg wBuyStrat wDate wCandles 0 wStPoor).position = none) ∧
    ((stepCandle wCfg wBuyStrat wDate wCandles 0 wStRich).position =
        some (entryPosSpec wCfg wBuyStrat wCandles 0
          wStRich.results.balance) ∧
      (stepCandle wCfg wBuyStrat wDate wCandles 0 wStRich).results.balance =
        wStRich.results.balance -
          (entryMarginReq wCfg wBuyStrat wCandles 0 wStRich.results.balance +
            entryFeeReq wCfg wBuyStrat wCandles 0 wStRich.results.balance) ∧
      (stepCandle wCfg wBuyStrat wDate wCandles 0 wStRich).results.trades =
        wStRich.results.trades) :=
  ⟨(insufficient_balance_entry wCfg wBuyStrat wDate wCandles 0 wStPoor rfl
      rfl (by norm_num [dailyBase, minHistory, wCfg, wStPoor])
      (by norm_num [entrySize, effLeverage, wBuyStrat, wCfg, wStPoor])).1
      (by norm_num [entryMarginReq, entryFeeReq, entrySize, effLeverage,
        wBuyStrat, wCfg, wStPoor]),
   (insufficient_balance_entry wCfg wBuyStrat wDate wCandles 0 wStRich rfl
      rfl (by norm_num [dailyBase, minHistory, wCfg, wStRich])
      (by norm_num [entrySize, effLeverage, wBuyStrat, wCfg, wStRich])).2
      (by norm_num [wCfg])
      (by norm_num [entryMarginReq, entryFeeReq, entrySize, effLeverage,
        wBuyStrat, wCfg, wStRich])
      (by norm_num [entryPosSpec, entryMarginReq, entryFeeReq, entrySize,
        effLeverage, wBuyStrat, wCfg, wStRich, wCandles, wCandle])
      (by norm_num [entryPosSpec, entrySize, effLeverage, wBuyStrat, wCfg,
        wStRich, wCandles, wCandle])⟩

/-- C7. For every close caused by the independent per-candle stop-loss /
take-profit check (position open, no SELL signal, no liquidation), the fill
price used for the exit value, the profit, the fees, and the recorded trade
exit field is exactly the configured stopLoss or takeProfit price — not the
candle close — and the stop-loss takes precedence when the candle close
breaches both thresholds (only `close <= stopLoss` is needed for the
stop-loss fill, regardless of the take-profit condition). -/
theorem stop_take_fill_price (cfg : Config) (strat : Strategy)
    (getDate : Nat → Nat) (candles : List Candle) (i : Nat) (st : SimState)
    (p : Position) (hp : st.position = some p)
    (hs : (strat.analyze (candles.take (i + 1)) st.position).action ≠ "SELL")
    (hnl : ¬(p.quantity * (candles.getD i default).close - p.positionValue ≤
      -p.marginUsed * (9 / 10))) :
    ((candles.getD i default).close ≤ p.stopLoss →
      (stepCandle cfg strat getDate candles i st).results.trades =
        st.results.trades ++
          [closeTradeSpec cfg p p.stopLoss "Stop Loss"
            (candles.getD i default).timestamp] ∧
      (closeTradeSpec cfg p p.stopLoss "Stop Loss"
        (candles.getD i default).timestamp).exit = p.stopLoss ∧
      (closeTradeSpec cfg p p.stopLoss "Stop Loss"
        (candles.getD i default).timestamp).fees =
          p.entryFee + p.quantity * p.stopLoss * cfg.takerFee ∧
      (stepCandle cfg strat getDate candles i st).results.balance =
        st.results.balance + p.marginUsed +
          (p.quantity * p.stopLoss - p.positionValue) -
          p.quantity * p.stopLoss * cfg.takerFee) ∧
    (¬(candles.getD i default).close ≤ p.stopLoss →
      p.takeProfit ≤ (candles.getD i default).close →
      (stepCandle cfg strat getDate candles i st).results.trades =
        st.results.trades ++
          [closeTradeSpec cfg p p.takeProfit "Take Profit"
            (candles.getD i default).timestamp] ∧
      (closeTradeSpec cfg p p.takeProfit "Take Profit"
        (candles.getD i default).timestamp).exit = p.takeProfit ∧
      (closeTradeSpec cfg p p.takeProfit "Take Profit"
        (candles.getD i default).timestamp).fees =
          p.entryFee + p.quantity * p.takeProfit * cfg.takerFee ∧
      (stepCandle cfg strat getDate candles i st).results.balance =
        st.results.balance + p.marginUsed +
          (p.quantity * p.takeProfit - p.positionValue) -
          p.quantity * p.takeProfit * cfg.takerFee) := by
  have hp1 : (preStep cfg getDate candles i st).position = some p := by
    rw [preStep_position]; exact hp
  rw [stepCandle_exitPath cfg strat getDate candles i st p hp hs]
  have hd := updateDrawdown_core (exitChecks cfg candles i
    (preStep cfg getDate candles i st))
  constructor
  · intro hsl
    have hchar := exitChecks_stopTake cfg candles i
      (preStep cfg getDate candles i st) p hp1 hnl (Or.inl hsl)
    rw [hd.1, hd.2.1, hchar.1, hchar.2.1, preStep_results, if_pos hsl,
      if_pos hsl]
    exact ⟨rfl, rfl, rfl, rfl⟩
  · intro hsl htp
    have hchar := exitChecks_stopTake cfg candles i
      (preStep cfg getDate candles i st) p hp1 hnl (Or.inr htp)
    rw [hd.1, hd.2.1, hchar.1, hchar.2.1, preStep_results, if_neg hsl,
      if_neg hsl]
    exact ⟨rfl, rfl, rfl, rfl⟩

/-- A position for which the candle close 100 breaches BOTH the stop loss
(150) and the take profit (90), to exercise the stop-loss precedence. -/
def wPosX : Position :=
  { entryPrice := 100, quantity := 1, stopLoss := 150, takeProfit := 90,
    entryTime := 0, positionValue := 100, marginUsed := 50, leverage := 1,
    entryFee := 0 }

/-- A simulation state holding `wPosX` open. -/
def wStX : SimState :=
  { results := { trades := [], balance := 100, initialBalance := 200,
                 peakBalance := 200, maxDrawdown := 0 },
    position := some wPosX, dailyTrades := 0, dailyLoss := 0,
    lastCandle := some (wCandle 5), lastTimestamp := some 300000 }

/-- Witness for C7: a candle breaching both thresholds fills at the stop
loss, one breaching only the take profit fills at the take profit. -/
theorem stop_take_fill_price_witness :
    ((stepCandle wCfg wHoldStrat wDate wCandles 0 wStX).results.trades =
        wStX.results.trades ++
          [closeTradeSpec wCfg wPosX wPosX.stopLoss "Stop Loss"
            (wCandles.getD 0 default).timestamp] ∧
      (closeTradeSpec wCfg wPosX wPosX.stopLoss "Stop Loss"
        (wCandles.getD 0 default).timestamp).exit = wPosX.stopLoss) ∧
    ((stepCandle wCfg wHoldStrat wDate wCandles 0 wStT).results.trades =
        wStT.results.trades ++
          [closeTradeSpec wCfg wPosT wPosT.takeProfit "Take Profit"
            (wCandles.getD 0 default).timestamp] ∧
      (closeTradeSpec wCfg wPosT wPosT.takeProfit "Take Profit"
        (wCandles.getD 0 default).timestamp).exit = wPosT.takeProfit) :=
  have hx := (stop_take_fill_price wCfg wHoldStrat wDate wCandles 0 wStX
    wPosX rfl (by decide)
    (by norm_num [wPosX, wCandles, wCandle])).1
    (by norm_num [wPosX, wCandles, wCandle])
  have ht := (stop_take_fill_price wCfg wHoldStrat wDate wCandles 0 wStT
    wPosT rfl (by decide)
    (by norm_num [wPosT, wCandles, wCandle])).2
    (by norm_num [wPosT, wCandles, wCandle])
    (by norm_num [wPosT, wCandles, wCandle])
  ⟨⟨hx.1, hx.2.1⟩, ⟨ht.1, ht.2.1⟩⟩

/-- C8 counterexample: a run with an empty trade list (here: an all-Hold
strategy over eleven candles) produces NO statistics report at all — the
source logs a warning and returns before computing any metric — rather than
a report with winRate = 0, profitFactor = 0 and totalTrades = 0. -/
theorem stats_empty_counterexample :
    (simulate wCfg wHoldStrat wDate wCandles).results.trades = [] ∧
    displayResults (simulate wCfg wHoldStrat wDate wCandles).results =
      none := by
  have h : (simulate wCfg wHoldStrat wDate wCandles).results.trades = [] := by
    norm_num [simulate, loopFinal, simLoop, stepCandle, trackLast, resetDaily,
      signalPhase, exitChecks, updateDrawdown, closeEndOfPeriod, initState,
      minHistory, MAX_TRADES, wCfg, wCandles, wCandle, wHoldStrat, wDate]
  exact ⟨h, by simp [displayResults, h]⟩

/-- C8 (amended). With an empty trade list the statistics computation
short-circuits and emits no report at all (so no ratio — and no division —
is ever attempted); for every run with at least one recorded trade,
including runs stopped early by a safety gate, a full report is produced
with totalTrades equal to the number of trades, winRate equal to
wins/total*100, and profitFactor equal to |avgWin / avgLoss| when avgLoss
is nonzero and the sentinel 0 otherwise (in particular when there are no
losing trades). -/
theorem stats_report (res : Results) :
    (res.trades = [] → displayResults res = none) ∧
    (res.trades ≠ [] →
      ∃ r, displayResults res = some r ∧
        r.totalTrades = res.trades.length ∧
        r.winRate = ((res.trades.filter fun t => 0 < t.profit).length : ℚ) /
          (res.trades.length : ℚ) * 100 ∧
        r.profitFactor =
          (if r.avgLoss ≠ 0 then |r.avgWin / r.avgLoss| else 0)) := by
  constructor
  · intro h
    simp [displayResults, h]
  · intro h
    have hlen : ¬(res.trades.length = 0) := by simpa using h
    simp only [displayResults, if_neg hlen]
    exact ⟨_, rfl, rfl, rfl, rfl⟩

/-- A one-trade results object (the witness run results). -/
def wResOne : Results :=
  { trades := [wEndTrade], balance := 200, initialBalance := 200,
    peakBalance := 200, maxDrawdown := 18 }

/-- An empty results object. -/
def wResEmpty : Results :=
  { trades := [], balance := 200, initialBalance := 200,
    peakBalance := 200, maxDrawdown := 0 }

/-- Witness for the amended C8: the empty result yields no report; the
one-trade result yields a report with the stated fields. -/
theorem stats_report_witness :
    displayResults wResEmpty = none ∧
    ∃ r, displayResults wResOne = some r ∧
      r.totalTrades = wResOne.trades.length ∧
      r.winRate = ((wResOne.trades.filter fun t => 0 < t.profit).length : ℚ) /
        (wResOne.trades.length : ℚ) * 100 ∧
      r.profitFactor =
        (if r.avgLoss ≠ 0 then |r.avgWin / r.avgLoss| else 0) :=
  ⟨(stats_report wResEmpty).1 rfl,
   (stats_report wResOne).2 (by simp [wResOne])⟩

/-- The signal-driven block and the daily counter: either the counter is
unchanged (and then the block either recorded no trade or closed the
position), or the counter incremented by exactly one because a strictly
losing trade was appended. -/
lemma signalPhase_daily_cases (cfg : Config) (strat : Strategy)
    (candles : List Candle) (i : Nat) (st : SimState) :
    ((signalPhase cfg strat candles i st).1.dailyTrades = st.dailyTrades ∧
      ((signalPhase cfg strat candles i st).1.results.trades =
          st.results.trades ∨
        (signalPhase cfg strat candles i st).1.position = none)) ∨
    ((signalPhase cfg strat candles i st).1.dailyTrades =
        st.dailyTrades + 1 ∧
      (signalPhase cfg strat candles i st).1.position = none ∧
      ∃ t, (signalPhase cfg strat candles i st).1.results.trades =
          st.results.trades ++ [t] ∧ t.profit < 0) := by
  cases hpos : st.position with
  | none =>
    simp only [signalPhase, hpos]
    split_ifs <;> exact Or.inl ⟨rfl, Or.inl rfl⟩
  | some p =>
    simp only [signalPhase, hpos]
    rw [if_neg (by simp)]
    split_ifs <;>
      first
        | exact Or.inl ⟨rfl, Or.inl rfl⟩
        | exact Or.inl ⟨rfl, Or.inr rfl⟩
        | exact Or.inr ⟨rfl, rfl, _, rfl, by assumption⟩

/-- The per-candle exit block and the daily counter: unchanged, or
incremented by one together with an appended strictly losing trade. -/
lemma exitChecks_daily_cases (cfg : Config) (candles : List Candle) (i : Nat)
    (st : SimState) :
    (exitChecks cfg candles i st).dailyTrades = st.dailyTrades ∨
    ((exitChecks cfg candles i st).dailyTrades = st.dailyTrades + 1 ∧
      ∃ t, (exitChecks cfg candles i st).results.trades =
        st.results.trades ++ [t] ∧ t.profit < 0) := by
  cases hpos : st.position with
  | none => exact Or.inl (by rw [exitChecks_flat cfg candles i st hpos])
  | some p =>
    simp only [exitChecks, hpos]
    split_ifs <;>
      first
        | exact Or.inl rfl
        | exact Or.inr ⟨rfl, _, rfl, by assumption⟩

/-- C10. The daily trade counter gating entries is incremented (by one) only
when a SELL-signal or stop-loss/take-profit close appends a trade with
strictly negative net profit; a liquidation close and the end-of-period
forced close never increment it; and a position can be created on a candle
only while the (post-reset) counter is below maxDailyTrades, so a day with
only winning or break-even closes never exhausts the entry gate. -/
theorem daily_counter (cfg : Config) (strat : Strategy) (getDate : Nat → Nat)
    (candles : List Candle) (i : Nat) (st : SimState) :
    ((stepCandle cfg strat getDate candles i st).dailyTrades =
        dailyBase cfg getDate candles i st ∨
      ((stepCandle cfg strat getDate candles i st).dailyTrades =
          dailyBase cfg getDate candles i st + 1 ∧
        ∃ t, (stepCandle cfg strat getDate candles i st).results.trades =
            st.results.trades ++ [t] ∧ t.profit < 0)) ∧
    (∀ p, st.position = some p →
      (strat.analyze (candles.take (i + 1)) st.position).action ≠ "SELL" →
      p.quantity * (candles.getD i default).close - p.positionValue ≤
        -p.marginUsed * (9 / 10) →
      (stepCandle cfg strat getDate candles i st).dailyTrades =
        dailyBase cfg getDate candles i st) ∧
    ((closeEndOfPeriod cfg st).dailyTrades = st.dailyTrades) ∧
    (st.position = none →
      ∀ q, (stepCandle cfg strat getDate candles i st).position = some q →
      dailyBase cfg getDate candles i st < cfg.maxDailyLosses) := by
  refine ⟨?_, ?_, ?_, ?_⟩
  · simp only [stepCandle, preStep_eq]
    have hbase := preStep_dailyTrades cfg getDate candles i st
    have hres := preStep_results cfg getDate candles i st
    rcases signalPhase_daily_cases cfg strat candles i
        (preStep cfg getDate candles i st) with ⟨hd, htr⟩ | ⟨hd, hposn, t, ht, hneg⟩
    · split
      · left; rw [hd, hbase]
      · rcases htr with htr | hposn
        · rcases exitChecks_daily_cases cfg candles i
              (signalPhase cfg strat candles i
                (preStep cfg getDate candles i st)).1 with h2 | ⟨h2, t2, ht2, hneg2⟩
          · left
            rw [(updateDrawdown_core _).2.2.2.1, h2, hd, hbase]
          · right
            refine ⟨by rw [(updateDrawdown_core _).2.2.2.1, h2, hd, hbase],
              t2, ?_, hneg2⟩
            rw [(updateDrawdown_core _).2.1, ht2, htr, hres]
        · left
          rw [(updateDrawdown_core _).2.2.2.1,
            exitChecks_flat cfg candles i _ hposn, hd, hbase]
    · split
      · right
        exact ⟨by rw [hd, hbase], t, by rw [ht, hres], hneg⟩
      · right
        rw [exitChecks_flat cfg candles i _ hposn]
        exact ⟨by rw [(updateDrawdown_core _).2.2.2.1, hd, hbase], t,
          by rw [(updateDrawdown_core _).2.1, ht, hres], hneg⟩
  · intro p hp hs hliq
    rw [stepCandle_exitPath cfg strat getDate candles i st p hp hs,
      (updateDrawdown_core _).2.2.2.1,
      exitChecks_liquidation cfg candles i _ p
        (by rw [preStep_position]; exact hp) hliq]
    exact preStep_dailyTrades cfg getDate candles i st
  · unfold closeEndOfPeriod
    cases hpos : st.position <;> cases hlc : st.lastCandle <;> rfl
  · intro hp q hq
    by_contra hgate
    have hp1 : (preStep cfg getDate candles i st).position = none := by
      rw [preStep_position]; exact hp
    have h1 := signalPhase_skip_of_gate cfg strat candles i
      (preStep cfg getDate candles i st) hp1
      (by rw [preStep_dailyTrades]; exact hgate)
    have hnone : (stepCandle cfg strat getDate candles i st).position =
        none := by
      simp only [stepCandle, preStep_eq]
      rw [h1]
      simp only [Bool.false_eq_true, if_false]
      rw [exitChecks_flat cfg candles i _ hp1]
      rw [(updateDrawdown_core _).2.2.1]
      exact hp1
    rw [hq] at hnone
    exact Option.noConfusion hnone

/-- A state holding `wPosB` open with a nonzero taker fee in the
configuration would realize a strictly losing stop-loss close; with the
zero-fee witness configuration the stop-loss close of `wPosB` is strictly
profitable, so here a strictly losing SELL close at price 100 of a position
entered at 200 is used instead. -/
def wStSellLoss : SimState :=
  { results := { trades := [], balance := 100, initialBalance := 200,
                 peakBalance := 200, maxDrawdown := 0 },
    position := some
      { entryPrice := 200, quantity := 1, stopLoss := 1, takeProfit := 10000,
        entryTime := 0, positionValue := 200, marginUsed := 150,
        leverage := 1, entryFee := 0 },
    dailyTrades := 0, dailyLoss := 0,
    lastCandle := some (wCandle 5), lastTimestamp := some 300000 }

/-- Direct evaluation: the rich state opens a position at candle 0 (used to
exercise the entry gate conjunct of the daily-counter theorem). -/
lemma wStRich_entry :
    (stepCandle wCfg wBuyStrat wDate wCandles 0 wStRich).position =
      some (entryPosSpec wCfg wBuyStrat wCandles 0
        wStRich.results.balance) := by
  norm_num [stepCandle, trackLast, resetDaily, signalPhase, exitChecks,
    updateDrawdown, minHistory, wCfg, wCandles, wCandle, wBuyStrat, wDate,
    wStRich, entryPosSpec, entrySize, entryMarginReq, entryFeeReq,
    effLeverage]

/-- Witness for C10: the counter after one step (losing SELL close, then
liquidation close, then end-of-period close, then a successful entry under
an open gate). -/
theorem daily_counter_witness :
    ((stepCandle wCfg wSellStrat wDate wCandles 0 wStSellLoss).dailyTrades =
        dailyBase wCfg wDate wCandles 0 wStSellLoss ∨
      ((stepCandle wCfg wSellStrat wDate wCandles 0
          wStSellLoss).dailyTrades =
          dailyBase wCfg wDate wCandles 0 wStSellLoss + 1 ∧
        ∃ t, (stepCandle wCfg wSellStrat wDate wCandles 0
            wStSellLoss).results.trades =
            wStSellLoss.results.trades ++ [t] ∧ t.profit < 0)) ∧
    (stepCandle wCfg wHoldStrat wDate wCandles 0 wStL).dailyTrades =
      dailyBase wCfg wDate wCandles 0 wStL ∧
    (closeEndOfPeriod wCfg wStA).dailyTrades = wStA.dailyTrades ∧
    dailyBase wCfg wDate wCandles 0 wStRich < wCfg.maxDailyLosses :=
  ⟨(daily_counter wCfg wSellStrat wDate wCandles 0 wStSellLoss).1,
   (daily_counter wCfg wHoldStrat wDate wCandles 0 wStL).2.1 wPosL rfl
     (by decide) (by norm_num [wPosL, wCandles, wCandle]),
   (daily_counter wCfg wSellStrat wDate wCandles 0 wStA).2.2.1,
   (daily_counter wCfg wBuyStrat wDate wCandles 0 wStRich).2.2.2 rfl
     (entryPosSpec wCfg wBuyStrat wCandles 0 wStRich.results.balance)
     wStRich_entry⟩

/-- If the signal-driven block signals `continue`, it has not modified the
state. -/
lemma signalPhase_skip (cfg : Config) (strat : Strategy)
    (candles : List Candle) (i : Nat) (st : SimState)
    (h : (signalPhase cfg strat candles i st).2 = true) :
    (signalPhase cfg strat candles i st).1 = st := by
  cases hpos : st.position with
  | none =>
    simp only [signalPhase, hpos] at h ⊢
    split_ifs at h ⊢ <;> simp_all
  | some p =>
    simp only [signalPhase, hpos] at h ⊢
    rw [if_neg (by simp)] at h ⊢
    split_ifs at h ⊢ <;> simp_all

/-- The signal-driven block never touches the peak balance or the recorded
max drawdown. -/
lemma signalPhase_peaks (cfg : Config) (strat : Strategy)
    (candles : List Candle) (i : Nat) (st : SimState) :
    (signalPhase cfg strat candles i st).1.results.peakBalance =
      st.results.peakBalance ∧
    (signalPhase cfg strat candles i st).1.results.maxDrawdown =
      st.results.maxDrawdown := by
  cases hpos : st.position with
  | none =>
    simp only [signalPhase, hpos]
    split_ifs <;> simp
  | some p =>
    simp only [signalPhase, hpos]
    rw [if_neg (by simp)]
    split_ifs <;> simp

/-- The per-candle exit block never touches the peak balance or the
recorded max drawdown. -/
lemma exitChecks_peaks (cfg : Config) (candles : List Candle) (i : Nat)
    (st : SimState) :
    (exitChecks cfg candles i st).results.peakBalance =
      st.results.peakBalance ∧
    (exitChecks cfg candles i st).results.maxDrawdown =
      st.results.maxDrawdown := by
  cases hpos : st.position with
  | none => rw [exitChecks_flat cfg candles i st hpos]; exact ⟨rfl, rfl⟩
  | some p =>
    simp only [exitChecks, hpos]
    split_ifs <;> simp

/-- Instantaneous drawdown percentage of a results object, the quantity the
source compares against the recorded max drawdown each candle. -/
def ddPct (r : Results) : ℚ :=
  (r.peakBalance - r.balance) / r.peakBalance * 100

/-- The drawdown update block: the new peak is the max of the old peak and
the balance, and the new recorded max drawdown is the max of the old one
and the instantaneous drawdown measured against the new peak. -/
lemma updateDrawdown_peaks (st : SimState) :
    (updateDrawdown st).results.peakBalance =
      max st.results.peakBalance st.results.balance ∧
    (updateDrawdown st).results.maxDrawdown =
      max st.results.maxDrawdown (ddPct (updateDrawdown st).results) := by
  simp only [updateDrawdown, ddPct]
  split_ifs with h1 h2 h3 <;> constructor <;>
    first
      | exact (max_eq_right (le_of_lt h1)).symm
      | exact (max_eq_left (le_of_not_lt h1)).symm
      | exact (max_eq_right (le_of_lt (by assumption))).symm
      | exact (max_eq_left (le_of_not_lt (by assumption))).symm

/-- Invariant maintained at every candle boundary: the balance never
exceeds the peak, and the instantaneous drawdown never exceeds the recorded
max drawdown. -/
def ddInv (st : SimState) : Prop :=
  st.results.balance ≤ st.results.peakBalance ∧
    ddPct st.results ≤ st.results.maxDrawdown

/-- Drawdown accounting of one loop step: the resulting peak is exactly
`max(oldPeak, newBalance)` and the resulting max drawdown is exactly
`max(oldMax, instantaneousDrawdown)`, the invariant is preserved, and both
recorded quantities are monotone. (On a `continue` iteration the source
skips the update, but the state is then unchanged, so the same equations
hold.) -/
lemma stepCandle_drawdown (cfg : Config) (strat : Strategy)
    (getDate : Nat → Nat) (candles : List Candle) (i : Nat) (st : SimState)
    (h : ddInv st) :
    (stepCandle cfg strat getDate candles i st).results.peakBalance =
      max st.results.peakBalance
        (stepCandle cfg strat getDate candles i st).results.balance ∧
    (stepCandle cfg strat getDate candles i st).results.maxDrawdown =
      max st.results.maxDrawdown
        (ddPct (stepCandle cfg strat getDate candles i st).results) ∧
    ddInv (stepCandle cfg strat getDate candles i st) ∧
    st.results.peakBalance ≤
      (stepCandle cfg strat getDate candles i st).results.peakBalance ∧
    st.results.maxDrawdown ≤
      (stepCandle cfg strat getDate candles i st).results.maxDrawdown := by
  simp only [stepCandle, preStep_eq]
  split
  · next hskip =>
    rw [signalPhase_skip cfg strat candles i _ hskip]
    have hres := preStep_results cfg getDate candles i st
    have hinv2 : ddInv (preStep cfg getDate candles i st) := by
      unfold ddInv
      rw [hres]
      exact h
    rw [hres]
    exact ⟨(max_eq_left h.1).symm, (max_eq_left h.2).symm, hinv2, le_refl _,
      le_refl _⟩
  · next hskip =>
    have hpk : (exitChecks cfg candles i
        (signalPhase cfg strat candles i
          (preStep cfg getDate candles i st)).1).results.peakBalance =
        st.results.peakBalance := by
      rw [(exitChecks_peaks _ _ _ _).1, (signalPhase_peaks _ _ _ _ _).1,
        preStep_results]
    have hmd : (exitChecks cfg candles i
        (signalPhase cfg strat candles i
          (preStep cfg getDate candles i st)).1).results.maxDrawdown =
        st.results.maxDrawdown := by
      rw [(exitChecks_peaks _ _ _ _).2, (signalPhase_peaks _ _ _ _ _).2,
        preStep_results]
    have hup := updateDrawdown_peaks (exitChecks cfg candles i
      (signalPhase cfg strat candles i (preStep cfg getDate candles i st)).1)
    have hbal := (updateDrawdown_core (exitChecks cfg candles i
      (signalPhase cfg strat candles i
        (preStep cfg getDate candles i st)).1)).1
    refine ⟨?_, ?_, ⟨?_, ?_⟩, ?_, ?_⟩
    · rw [hup.1, hpk, hbal]
    · rw [hup.2, hmd]
    · rw [hup.1, hpk, hbal]
      exact le_max_right _ _
    · rw [hup.2]
      exact le_max_right _ _
    · rw [hup.1, hpk]
      exact le_max_left _ _
    · rw [hup.2, hmd]
      exact le_max_left _ _

/-- The per-candle trace of the simulation loop: the state at the end of
each processed candle, in order, with the same gates and step as
`simLoop`. -/
def simTrace (cfg : Config) (strat : Strategy) (getDate : Nat → Nat)
    (candles : List Candle) : Nat → Nat → SimState → List SimState
  | 0, _, _ => []
  | gas + 1, i, st =>
    if MAX_TRADES ≤ st.results.trades.length then []
    else if st.results.balance < 10 then []
    else
      stepCandle cfg strat getDate candles i st ::
        simTrace cfg strat getDate candles gas (i + 1)
          (stepCandle cfg strat getDate candles i st)

/-- Drawdown accounting of the whole loop relative to its per-candle trace:
the final peak balance is the fold of `max` with the balances of every
processed candle, the final recorded max drawdown is the fold of `max` with
the instantaneous drawdowns of every processed candle, and both recorded
quantities are monotone along the run. -/
lemma simLoop_drawdown (cfg : Config) (strat : Strategy) (getDate : Nat → Nat)
    (candles : List Candle) :
    ∀ gas i st, ddInv st →
      (simLoop cfg strat getDate candles gas i st).results.peakBalance =
        List.foldl (fun a s => max a s.results.balance)
          st.results.peakBalance
          (simTrace cfg strat getDate candles gas i st) ∧
      (simLoop cfg strat getDate candles gas i st).results.maxDrawdown =
        List.foldl (fun a s => max a (ddPct s.results))
          st.results.maxDrawdown
          (simTrace cfg strat getDate candles gas i st) ∧
      List.Chain'
        (fun s t => s.results.peakBalance ≤ t.results.peakBalance ∧
          s.results.maxDrawdown ≤ t.results.maxDrawdown)
        (st :: simTrace cfg strat getDate candles gas i st) := by
  intro gas
  induction gas with
  | zero => intro i st _; simp [simLoop, simTrace]
  | succ gas ih =>
    intro i st h
    simp only [simLoop, simTrace]
    split_ifs with h1 h2
    · simp
    · simp
    · have hstep := stepCandle_drawdown cfg strat getDate candles i st h
      have hrec := ih (i + 1) (stepCandle cfg strat getDate candles i st)
        hstep.2.2.1
      refine ⟨?_, ?_, ?_⟩
      · simp only [List.foldl_cons]
        rw [hrec.1, hstep.1]
      · simp only [List.foldl_cons]
        rw [hrec.2.1, hstep.2.1]
      · rw [List.chain'_cons]
        exact ⟨⟨hstep.2.2.2.1, hstep.2.2.2.2⟩, hrec.2.2⟩

/-- The end-of-period cleanup does not touch the peak balance or the
recorded max drawdown. -/
lemma closeEndOfPeriod_peaks (cfg : Config) (st : SimState) :
    (closeEndOfPeriod cfg st).results.peakBalance =
      st.results.peakBalance ∧
    (closeEndOfPeriod cfg st).results.maxDrawdown =
      st.results.maxDrawdown := by
  unfold closeEndOfPeriod
  cases hpos : st.position <;> cases hlc : st.lastCandle <;> exact ⟨rfl, rfl⟩

/-- C9. Across every run the recorded peak balance is the running maximum of
the balance — recomputed as `max(peakBalance, balance)` at (the end of)
every processed candle, starting from the initial balance — and the recorded
max drawdown percent is the running maximum of the per-candle instantaneous
drawdown `(peakBalance - balance)/peakBalance*100`, starting from 0; both
are monotonically non-decreasing along the whole run, regardless of whether
a position is open, and the end-of-period cleanup leaves both untouched, so
`simulate` reports exactly these values. -/
theorem drawdown_tracking (cfg : Config) (strat : Strategy)
    (getDate : Nat → Nat) (candles : List Candle) :
    (simulate cfg strat getDate candles).results.peakBalance =
      List.foldl (fun a s => max a s.results.balance) cfg.initialBalance
        (simTrace cfg strat getDate candles
          (candles.length - minHistory cfg) (minHistory cfg)
          (initState cfg)) ∧
    (simulate cfg strat getDate candles).results.maxDrawdown =
      List.foldl (fun a s => max a (ddPct s.results)) 0
        (simTrace cfg strat getDate candles
          (candles.length - minHistory cfg) (minHistory cfg)
          (initState cfg)) ∧
    List.Chain'
      (fun s t => s.results.peakBalance ≤ t.results.peakBalance ∧
        s.results.maxDrawdown ≤ t.results.maxDrawdown)
      (initState cfg ::
        simTrace cfg strat getDate candles
          (candles.length - minHistory cfg) (minHistory cfg)
          (initState cfg)) := by
  have hinv : ddInv (initState cfg) := by
    constructor
    · exact le_refl _
    · simp [ddPct, initState]
  have hmain := simLoop_drawdown cfg strat getDate candles
    (candles.length - minHistory cfg) (minHistory cfg) (initState cfg) hinv
  have hclose := closeEndOfPeriod_peaks cfg
    (loopFinal cfg strat getDate candles)
  refine ⟨?_, ?_, hmain.2.2⟩
  · rw [show (simulate cfg strat getDate candles).results.peakBalance =
        (loopFinal cfg strat getDate candles).results.peakBalance from
        hclose.1]
    exact hmain.1
  · rw [show (simulate cfg strat getDate candles).results.maxDrawdown =
        (loopFinal cfg strat getDate candles).results.maxDrawdown from
        hclose.2]
    exact hmain.2.1

end Backtest
